import Mathlib

/-!
Verification development for the SkillMap backend
(`backend/app/services/{cognitive_service,assessment_service,gap_engine,recommender}.py`).

Conventions of the shallow embedding:
* Python floats are modelled as `ℝ` where the code applies `math.exp` /
  `numpy` norms (cognitive service, gap engine) and as `ℚ` in the
  recommender, whose arithmetic is entirely rational; float rounding is
  not modelled.
* Python dicts are modelled as insertion-ordered association lists
  (`dictGet` / `dictSet`), matching CPython's ordered-dict semantics:
  setting an existing key keeps its position, a new key is appended.
* UUIDs and database ids are modelled as `ℕ`; Python strings as `String`.
* Errors raised with `raise ValueError(...)` are modelled by the
  `SMError` kind that the spec's error taxonomy (§7) assigns to the
  corresponding raise site (the sites are distinguished by message in
  the source).
* External oracles (the LLM) are modelled as function parameters; the
  database session is modelled as explicit state passed in and out.
-/

namespace SkillMap

/-- Ordered-dict lookup (`d.get(k)` / `d[k]`): first binding of the key wins;
keys are unique in every dict the code builds. -/
def dictGet {κ α : Type} [DecidableEq κ] : List (κ × α) → κ → Option α
  | [], _ => none
  | (k, v) :: t, k' => if k = k' then some v else dictGet t k'

/-- Ordered-dict update (`d[k] = v`): an existing key keeps its position,
a new key is appended at the end, as in CPython dicts. -/
def dictSet {κ α : Type} [DecidableEq κ] : List (κ × α) → κ → α → List (κ × α)
  | [], k, v => [(k, v)]
  | (k', v') :: t, k, v => if k' = k then (k, v) :: t else (k', v') :: dictSet t k v

/-- Python `int(x)` on a float: truncation toward zero. -/
def pyInt (q : ℚ) : ℤ := if q < 0 then -⌊-q⌋ else ⌊q⌋

/-- Python `str.lower()` (per-character lowering; option ids are ASCII). -/
def pyLower (s : String) : String := String.mk (s.data.map Char.toLower)

/-- Spec §7 error taxonomy; each constructor corresponds to one
`raise ValueError(...)` site of the source (distinguished there by message). -/
inductive SMError : Type
  | notFound
  | authorization
  | conflict
  | validation
deriving DecidableEq, Repr

/-! ### Cognitive service (`cognitive_service.py`) -/

/-- Per-skill entry of `EmployeeProfile.cognitive_profile`
(`{"theta": .., "alpha": .., "level": ..}`), as written by `CognitiveService`. -/
structure SkillState : Type where
  theta : ℝ
  alpha : ℝ
  level : ℝ

/-- One element of the `assessments` argument of `update_profile`:
`{skill_id, difficulty, correct}`. -/
structure AssessItem : Type where
  skill_id : ℕ
  difficulty : ℝ
  correct : Bool

/-- One `(alpha, beta, correct)` response tuple fed to `_update_theta`. -/
structure IrtResponse : Type where
  alpha : ℝ
  beta : ℝ
  correct : Bool

/-- `CognitiveService._irt_probability`: the 2PL logistic
`1 / (1 + exp(-(alpha * (theta - beta))))`. -/
noncomputable def irt_probability (theta alpha beta : ℝ) : ℝ :=
  1 / (1 + Real.exp (-(alpha * (theta - beta))))

/-- Gradient accumulated in one step of `_update_theta`:
`grad += (correct - p) * alpha` over the responses, starting from `0.0`. -/
noncomputable def irtGrad (responses : List IrtResponse) (t : ℝ) : ℝ :=
  responses.foldl
    (fun g r => g + ((if r.correct then 1 else 0) - irt_probability t r.alpha r.beta) * r.alpha) 0

/-- One iteration of the `_update_theta` loop: `t += lr * grad`. -/
noncomputable def thetaStep (lr : ℝ) (responses : List IrtResponse) (t : ℝ) : ℝ :=
  t + lr * irtGrad responses t

/-- `CognitiveService._update_theta(theta, responses, lr=0.01, steps=15)`:
`steps` gradient-ascent iterations. -/
noncomputable def update_theta (theta : ℝ) (responses : List IrtResponse)
    (lr : ℝ := 1/100) (steps : ℕ := 15) : ℝ :=
  (thetaStep lr responses)^[steps] theta

/-- Employee cognitive profile: `skill_id → SkillState`, insertion ordered. -/
abbrev Profile : Type := List (ℕ × SkillState)

/-- Accumulator step of `defaultdict(list)` grouping in `update_profile`:
append the item to its skill's list, first occurrence fixing key order. -/
def groupInsert (acc : List (ℕ × List AssessItem)) (a : AssessItem) :
    List (ℕ × List AssessItem) :=
  match acc with
  | [] => [(a.skill_id, [a])]
  | (k, l) :: t =>
    if k = a.skill_id then (k, l ++ [a]) :: t else (k, l) :: groupInsert t a

/-- Grouping of the assessments by `skill_id` (`grouped` in `update_profile`). -/
def groupItems (items : List AssessItem) : List (ℕ × List AssessItem) :=
  items.foldl groupInsert []

/-- Theta-to-level map used by `update_profile`:
`max(0.0, min(5.0, ((theta + 3) / 6) * 5))`. -/
noncomputable def levelOfTheta (theta : ℝ) : ℝ :=
  max 0 (min 5 ((theta + 3) / 6 * 5))

/-- Body of the per-skill loop of `update_profile`: read the state (default
`{"theta": 0.0, "alpha": 1.0, "level": 0.0}`), build the `(alpha, difficulty,
correct)` responses with the state's alpha, run `_update_theta`, store the new
theta and its level. -/
noncomputable def applyGroup (prof : Profile) (sk : ℕ) (its : List AssessItem) : Profile :=
  let st := (dictGet prof sk).getD ⟨0, 1, 0⟩
  let responses := its.map (fun i => IrtResponse.mk st.alpha i.difficulty i.correct)
  let theta1 := update_theta st.theta responses
  dictSet prof sk ⟨theta1, st.alpha, levelOfTheta theta1⟩

/-- Pure core of `CognitiveService.update_profile`: group the assessments per
skill and fold the per-skill update over the profile. -/
noncomputable def update_profile_fn (prof : Profile) (items : List AssessItem) : Profile :=
  (groupItems items).foldl (fun p g => applyGroup p g.1 g.2) prof

/-- `CognitiveService.update_profile(employee_id, assessments)` against the
`EmployeeProfile` table: raises (`ValueError("Employee not found")`, the spec's
`NotFoundError`) when the employee row is absent, otherwise commits and
returns the updated profile. -/
noncomputable def update_profile (profiles : List (ℕ × Profile)) (employee_id : ℕ)
    (items : List AssessItem) : Except SMError (List (ℕ × Profile) × Profile) :=
  match dictGet profiles employee_id with
  | none => .error .notFound
  | some p =>
    let p1 := update_profile_fn p items
    .ok (dictSet profiles employee_id p1, p1)

/-! ### Assessment service (`assessment_service.py`) -/

/-- One option of an MCQ question. -/
structure MCOption : Type where
  option_id : String
  text : String
deriving DecidableEq

/-- One stored question of an assessment (JSON dict; the `q.get(..., default)`
defaults of the source are folded into total fields). -/
structure Question : Type where
  question_id : String
  question : String
  options : List MCOption
  correct_answer_id : String
  difficulty : ℚ
  explanation : String
deriving DecidableEq

/-- A `SkillAssessment` row. -/
structure Assessment : Type where
  employee_id : ℕ
  skill_id : ℕ
  questions : List Question
  answers : List (String × String)
  correct_answers : List (String × String)
  score : ℚ
  difficulty_level : ℚ
  readiness_score : ℚ
  status : String
  completed_at : Option ℕ

/-- Database state visible to the assessment service: the `SkillAssessment`
table and the `EmployeeProfile` table (only its `cognitive_profile` column is
relevant). -/
structure SubmitState : Type where
  assessments : List (ℕ × Assessment)
  profiles : List (ℕ × Profile)

/-- Grading of one question in `submit_assessment`:
`answers.get(q_id, "").lower() == q.get("correct_answer_id", "").lower()`. -/
def gradeAnswer (answers : List (String × String)) (q : Question) : Bool :=
  pyLower ((dictGet answers q.question_id).getD "") == pyLower q.correct_answer_id

/-- The `(skill_id, difficulty, correct)` tuples fed into
`CognitiveService.update_profile` by `submit_assessment`. -/
def irtItemsOf (sk : ℕ) (answers : List (String × String)) (qs : List Question) :
    List AssessItem :=
  qs.map (fun q => AssessItem.mk sk (q.difficulty : ℝ) (gradeAnswer answers q))

/-- Per-question feedback entry returned by `submit_assessment`. -/
structure FeedbackItem : Type where
  question_id : String
  question : String
  user_answer : String
  correct_answer : String
  is_correct : Bool
  explanation : String
  difficulty : ℚ
deriving DecidableEq

/-- Feedback list built while grading. -/
def feedbackOf (answers : List (String × String)) (qs : List Question) : List FeedbackItem :=
  qs.map (fun q =>
    { question_id := q.question_id
      question := q.question
      user_answer := (dictGet answers q.question_id).getD ""
      correct_answer := q.correct_answer_id
      is_correct := gradeAnswer answers q
      explanation := q.explanation
      difficulty := q.difficulty })

/-- Percentage-to-proficiency bands of `submit_assessment`
(`<20 → 1.0, <40 → 2.0, <60 → 3.0, <80 → 4.0, else 5.0`). -/
def bandScore (percentage : ℚ) : ℚ :=
  if percentage < 20 then 1
  else if percentage < 40 then 2
  else if percentage < 60 then 3
  else if percentage < 80 then 4
  else 5

/-- Reconciliation of assessment score with the IRT level
(`>=80: max`, `>=60: average`, else trust IRT). -/
noncomputable def reconcile (percentage : ℚ) (proficiency_score : ℚ) (updated_level : ℝ) : ℝ :=
  if percentage ≥ 80 then max (proficiency_score : ℝ) updated_level
  else if percentage ≥ 60 then ((proficiency_score : ℝ) + updated_level) / 2
  else updated_level

/-- The bound `max(0.0, min(5.0, x))` applied to the reconciled proficiency. -/
noncomputable def clamp05 (x : ℝ) : ℝ := max 0 (min 5 x)

/-- Result dict of `submit_assessment` (the `skill_name` display field of the
source, a join against the `Skill` table, is presentation-only and omitted). -/
structure SubmitResult : Type where
  assessment_id : ℕ
  skill_id : ℕ
  score : ℚ
  percentage_correct : ℚ
  total_questions : ℕ
  correct_answers_count : ℕ
  questions_with_feedback : List FeedbackItem
  updated_proficiency : ℝ

/-- Happy path of `submit_assessment` after all four precondition checks:
grading, banding, the guarded IRT profile update (whose failure is caught by
`except Exception`, substituting `proficiency_score`), the profile level
overwrite, and the assessment-record completion. `now` models
`datetime.utcnow()`. -/
noncomputable def submitCore (s : SubmitState) (assessment_id : ℕ) (a : Assessment)
    (employee_id : ℕ) (answers : List (String × String)) (now : ℕ) :
    SubmitState × SubmitResult :=
  let qs := a.questions
  let correct_count := qs.countP (gradeAnswer answers)
  let total := qs.length
  let percentage : ℚ := if total > 0 then ((correct_count : ℚ) / (total : ℚ)) * 100 else 0
  let proficiency_score := bandScore percentage
  let items := irtItemsOf a.skill_id answers qs
  let updated : List (ℕ × Profile) × ℝ :=
    match update_profile s.profiles employee_id items with
    | .error _ =>
      -- `except Exception`: the failure is swallowed, `proficiency_score`
      -- substituted, and no profile row written.
      (s.profiles, (proficiency_score : ℝ))
    | .ok (profs1, updated_profile) =>
      let updated_level := ((dictGet updated_profile a.skill_id).map (·.level)).getD 0
      let up := clamp05 (reconcile percentage proficiency_score updated_level)
      let profile2 :=
        match dictGet updated_profile a.skill_id with
        | some st => dictSet updated_profile a.skill_id { st with level := up }
        | none =>
          -- unreachable from `submit` (the skill's group is always present);
          -- the source would store a partial dict here.
          dictSet updated_profile a.skill_id ⟨0, 1, up⟩
      let profs2 :=
        match dictGet profs1 employee_id with
        | some _ => dictSet profs1 employee_id profile2
        | none => profs1
      (profs2, up)
  let a1 : Assessment :=
    { a with
      answers := answers
      correct_answers := qs.map (fun q => (q.question_id, q.correct_answer_id))
      score := proficiency_score
      status := "completed"
      completed_at := some now }
  (⟨dictSet s.assessments assessment_id a1, updated.1⟩,
   { assessment_id := assessment_id
     skill_id := a.skill_id
     score := proficiency_score
     percentage_correct := percentage
     total_questions := total
     correct_answers_count := correct_count
     questions_with_feedback := feedbackOf answers qs
     updated_proficiency := updated.2 })

/-- `AssessmentService.submit_assessment(assessment_id, employee_id, answers)`:
the four guard checks in source order, then the happy path. -/
noncomputable def submit_assessment (s : SubmitState) (assessment_id employee_id : ℕ)
    (answers : List (String × String)) (now : ℕ) :
    Except SMError (SubmitState × SubmitResult) :=
  match dictGet s.assessments assessment_id with
  | none => .error .notFound
  | some a =>
    if a.employee_id ≠ employee_id then .error .authorization
    else if a.status = "completed" then .error .conflict
    else if a.questions.isEmpty then .error .validation
    else .ok (submitCore s assessment_id a employee_id answers now)

/-- One question as returned by `get_assessment`: before completion the
source builds a dict without the `correct_answer_id` and `explanation` keys
(modelled as `none`); after completion the stored question is returned whole. -/
structure DisplayQuestion : Type where
  question_id : String
  question : String
  options : List MCOption
  difficulty : ℚ
  correct_answer_id : Option String
  explanation : Option String
deriving DecidableEq

/-- Redacted view used while `status != "completed"`. -/
def displayRedacted (q : Question) : DisplayQuestion :=
  { question_id := q.question_id
    question := q.question
    options := q.options
    difficulty := q.difficulty
    correct_answer_id := none
    explanation := none }

/-- Unredacted view used once `status == "completed"`. -/
def displayFull (q : Question) : DisplayQuestion :=
  { question_id := q.question_id
    question := q.question
    options := q.options
    difficulty := q.difficulty
    correct_answer_id := some q.correct_answer_id
    explanation := some q.explanation }

/-- Result of `get_assessment` (again without the `skill_name` join). -/
structure GetResult : Type where
  assessment_id : ℕ
  skill_id : ℕ
  questions : List DisplayQuestion
  difficulty_level : ℚ
  status : String
  completed_at : Option ℕ
deriving DecidableEq

/-- `AssessmentService.get_assessment(assessment_id, employee_id)`. -/
def get_assessment (s : SubmitState) (assessment_id employee_id : ℕ) :
    Except SMError GetResult :=
  match dictGet s.assessments assessment_id with
  | none => .error .notFound
  | some a =>
    if a.employee_id ≠ employee_id then .error .authorization
    else
      .ok
        { assessment_id := assessment_id
          skill_id := a.skill_id
          questions :=
            if a.status ≠ "completed" then a.questions.map displayRedacted
            else a.questions.map displayFull
          difficulty_level := a.difficulty_level
          status := a.status
          completed_at := a.completed_at }

/-! ### Gap engine (`gap_engine.py`) -/

/-- The `1e-8` guard the gap engine adds to denominators. -/
noncomputable def gapEps : ℝ := 1 / 100000000

/-- Elementwise numpy addition of two equal-length vectors. -/
def vecAdd (a b : List ℝ) : List ℝ := List.zipWith (· + ·) a b

/-- Scalar multiple `w * np.array(v)`. -/
def vecScale (w : ℝ) (v : List ℝ) : List ℝ := v.map (w * ·)

/-- `GapEngine._bundle_embedding(skill_ids, weights)`: weighted vectors of the
ids that resolve in the vector store, summed and divided by
`sum(weights) + 1e-8`; `[]` when no vector resolves. -/
noncomputable def bundle_embedding (store : ℕ → Option (List ℝ))
    (skill_ids : List ℕ) (weights : List ℝ) : List ℝ :=
  let vectors := (List.zip skill_ids weights).filterMap
    (fun p => (store p.1).map (fun v => vecScale p.2 v))
  match vectors with
  | [] => []
  | v :: vs =>
    let arr := vs.foldl vecAdd v
    arr.map (· / (weights.sum + gapEps))

/-- Dot product `va @ vb`. -/
def dotProduct (a b : List ℝ) : ℝ := (List.zipWith (· * ·) a b).sum

/-- `np.linalg.norm`: the Euclidean norm. -/
noncomputable def l2norm (v : List ℝ) : ℝ := Real.sqrt ((v.map (fun x => x * x)).sum)

/-- `GapEngine._similarity(a, b)`: `0.0` for an empty side, else
`(va @ vb) / (norm(va) * norm(vb) + 1e-8)`. -/
noncomputable def similarity_fn (a b : List ℝ) : ℝ :=
  if a.isEmpty || b.isEmpty then 0
  else dotProduct a b / (l2norm a * l2norm b + gapEps)

/-- Result slice of a successful `gaps_for_employee` analysis. -/
structure GapResult : Type where
  scalar_gaps : List (ℕ × ℝ)
  similarity : ℝ
  gap_index : ℝ

/-- Final scoring steps (6 and 7) of `GapEngine.gaps_for_employee`, entered on
every successful analysis, i.e. whenever the returned `scalar_gaps` is
non-empty (all early returns carry empty `scalar_gaps`): the employee bundle
is weighted by AI-derived current levels, the required bundle by importance
weights, `similarity` guards empty bundles, and
`gap_index = (1.0 - similarity) + avg_gap` with
`avg_gap = sum(scalar_gaps.values()) / (len(scalar_gaps) + 1e-8)`. -/
noncomputable def gaps_for_employee_core (store : ℕ → Option (List ℝ))
    (skill_ids : List ℕ) (weights : List ℝ) (current_levels : List (ℕ × ℝ))
    (scalar_gaps : List (ℕ × ℝ)) : GapResult :=
  let emp_weights := skill_ids.map (fun sid => (dictGet current_levels sid).getD 0)
  let emp_vec := bundle_embedding store skill_ids emp_weights
  let req_vec := bundle_embedding store skill_ids weights
  let similarity :=
    if !emp_vec.isEmpty && !req_vec.isEmpty then similarity_fn emp_vec req_vec else 0
  let avg_gap :=
    if !scalar_gaps.isEmpty then
      (scalar_gaps.map (·.2)).sum / ((scalar_gaps.length : ℝ) + gapEps)
    else 0
  { scalar_gaps := scalar_gaps
    similarity := similarity
    gap_index := (1 - similarity) + avg_gap }

/-! ### Recommender (`recommender.py`)

The recommender's arithmetic is entirely rational, so it is embedded over
`ℚ` and stays executable.  The LLM content oracle and the database id
supply are explicit parameters; `gaps_for_employee`'s result is an input
(its computation is the AI-dependent analysis above). -/

/-- Python banker's rounding of `round(x)` (ties to even), on exact rationals. -/
def pyRound (x : ℚ) : ℤ :=
  let f := ⌊x⌋
  let r := x - (f : ℚ)
  if r < 1/2 then f
  else if 1/2 < r then f + 1
  else if f % 2 = 0 then f else f + 1

/-- Python `round(x, 2)`. -/
def pyRound2 (x : ℚ) : ℚ := (pyRound (x * 100) : ℚ) / 100

/-- Python `round(x, 1)`. -/
def pyRound1 (x : ℚ) : ℚ := (pyRound (x * 10) : ℚ) / 10

/-- The parts of `module_metadata` the recommender reads: lengths of
`content` / `exercises` / `assessment` and the tagged `skill_id`. -/
structure ModuleMetadata : Type where
  content_len : ℕ
  exercises : ℕ
  assessment : ℕ
  skill_id : Option ℕ
deriving DecidableEq

/-- A `LearningModule` row as the recommender uses it. -/
structure LearningModule : Type where
  module_id : ℕ
  title : String
  description : String
  duration_minutes : Option ℤ
  difficulty_level : Option ℚ
  skills : List ℕ
  metadata : Option ModuleMetadata
  is_generated : Bool
deriving DecidableEq

/-- One entry of the returned learning-path `items` list. -/
structure PathItem : Type where
  skill_id : ℕ
  module_id : ℕ
  title : String
  description : String
  order : ℕ
  expected_gain : ℚ
  duration_minutes : ℤ
  is_generated : Bool
deriving DecidableEq

/-- Shared clamp bounds of the duration heuristics:
`min = 15 + target*10`, `max = 45 + target*30`. -/
def durationBounds (target_level : ℤ) : ℚ × ℚ :=
  (15 + (target_level : ℚ) * 10, 45 + (target_level : ℚ) * 30)

/-- Final fallback of `_calculate_module_duration`: base duration scaled by
the gap multiplier, clamped. -/
def fallbackDuration (target_level : ℤ) (gap_val : ℚ) : ℚ :=
  let base_duration : ℚ := 20 + (target_level : ℚ) * 10
  let gap_multiplier : ℚ := 1 + gap_val * (1/5)
  let estimated := base_duration * gap_multiplier
  max (durationBounds target_level).1 (min (durationBounds target_level).2 estimated)

/-- Content-shape duration shared by `_calculate_module_duration` and module
generation: reading at 150 wpm (words ≈ chars/5), per-exercise
`5 + target*2.5`, per-assessment-item `3 + target*0.8`, comprehension buffer
`reading * (0.2 + target*0.1)`. -/
def contentDuration (content_len exercises assessment : ℕ) (target_level : ℤ) : ℚ :=
  let word_count : ℚ := (content_len : ℚ) / 5
  let reading_time := word_count / 150
  let exercise_time := (exercises : ℚ) * (5 + (target_level : ℚ) * (5/2))
  let assessment_time := (assessment : ℚ) * (3 + (target_level : ℚ) * (4/5))
  let comprehension_buffer := reading_time * (1/5 + (target_level : ℚ) * (1/10))
  reading_time + exercise_time + assessment_time + comprehension_buffer

/-- `RecommenderService._calculate_module_duration(module, target_level,
gap_val)`: stored duration verbatim when truthy, else the content estimate
(clamped, no `int()`), else the gap-scaled fallback. -/
def calculate_module_duration (m : LearningModule) (target_level : ℤ) (gap_val : ℚ) : ℚ :=
  if m.duration_minutes.getD 0 ≠ 0 then ((m.duration_minutes.getD 0 : ℤ) : ℚ)
  else
    match m.metadata with
    | some md =>
      if md.content_len > 0 then
        max (durationBounds target_level).1
          (min (durationBounds target_level).2
            (contentDuration md.content_len md.exercises md.assessment target_level))
      else fallbackDuration target_level gap_val
    | none => fallbackDuration target_level gap_val

/-- Validated content returned by the generation oracle
(`llm.generate_learning_content`), reduced to the shape the service reads. -/
structure GenContent : Type where
  title : String
  description : String
  content_len : ℕ
  exercises : ℕ
  assessment : ℕ

/-- Request payload of one generation call. -/
structure GenRequest : Type where
  skill_id : ℕ
  target_level : ℤ
  theta : ℚ
  module_index : ℕ
  total_modules : ℤ

/-- The external content oracle: one `Option GenContent` per call (indexed by
call count, so successive calls may differ); `none` models both an LLM
failure and the `except` branch of `_generate_module_for_skill`. -/
abbrev GenOracle : Type := ℕ → GenRequest → Option GenContent

/-- Module record committed by `_generate_module_for_skill`: duration is the
content estimate with `int()` applied before the clamp, difficulty is the
target level, the module is tagged with the skill and marked generated.
`module_id` is the id the database assigns on commit. -/
def buildGeneratedModule (module_id skill_id : ℕ) (target_level : ℤ) (c : GenContent) :
    LearningModule :=
  let duration : ℤ :=
    max (15 + target_level * 10)
      (min (45 + target_level * 30) (pyInt (contentDuration c.content_len c.exercises c.assessment target_level)))
  { module_id := module_id
    title := c.title
    description := c.description
    duration_minutes := some duration
    difficulty_level := some (target_level : ℚ)
    skills := [skill_id]
    metadata := some ⟨c.content_len, c.exercises, c.assessment, some skill_id⟩
    is_generated := true }

/-- Stable insertion (descending by gap value) reproducing
`sorted(..., key=lambda kv: kv[1], reverse=True)`. -/
def insertDescVal (x : ℕ × ℚ) : List (ℕ × ℚ) → List (ℕ × ℚ)
  | [] => [x]
  | y :: ys => if y.2 < x.2 then x :: y :: ys else y :: insertDescVal x ys

/-- Stable descending sort by gap value. -/
def sortDescVal (l : List (ℕ × ℚ)) : List (ℕ × ℚ) :=
  l.foldl (fun acc x => insertDescVal x acc) []

/-- Sort key of `modules.sort(key=lambda m: m.difficulty_level or 999)`
(`or 999` also replaces a stored `0`). -/
def moduleSortKey (m : LearningModule) : ℚ :=
  match m.difficulty_level with
  | some d => if d = 0 then 999 else d
  | none => 999

/-- Stable insertion, ascending by `moduleSortKey`. -/
def insertAscModule (x : LearningModule) : List LearningModule → List LearningModule
  | [] => [x]
  | y :: ys => if moduleSortKey x < moduleSortKey y then x :: y :: ys else y :: insertAscModule x ys

/-- Stable ascending sort of candidate modules by difficulty. -/
def sortModulesByDifficulty (l : List LearningModule) : List LearningModule :=
  l.foldl (fun acc x => insertAscModule x acc) []

/-- Cognitive-profile entry as the recommender reads it
(`state.get("theta", 0.0)`, `state.get("level", theta)`). -/
structure RecEntry : Type where
  theta : Option ℚ
  level : Option ℚ

/-- Cognitive profile seen by the recommender. -/
abbrev RecProfile : Type := List (ℕ × RecEntry)

/-- An `EmployeeProfile` row as the recommender uses it. -/
structure RecEmployee : Type where
  cognitive_profile : RecProfile

/-- A `StrategicGoal` row (only `time_horizon_year` is read). -/
structure StrategicGoal : Type where
  time_horizon_year : Option ℤ

/-- The `gaps_for_employee` result consumed by `generate_learning_path`. -/
structure GapsOutcome : Type where
  scalar_gaps : List (ℕ × ℚ)
  similarity : ℚ
  gap_index : ℚ
  message : Option String

/-- Database and oracle context of one `generate_learning_path` call. -/
structure RecCtx : Type where
  employees : List (ℕ × RecEmployee)
  goals : List (ℕ × StrategicGoal)
  skills : List ℕ
  modules : List LearningModule
  llm : Option GenOracle
  next_module_id : ℕ
  current_year : ℤ

/-- `years_left = max(0.5, (horizon or current_year+3) - current_year) if
horizon else None` (a stored `0` year is falsy). -/
def yearsLeft (time_horizon_year : Option ℤ) (current_year : ℤ) : Option ℚ :=
  match time_horizon_year with
  | some t => if t ≠ 0 then some (max (1/2 : ℚ) ((t : ℚ) - (current_year : ℚ))) else none
  | none => none

/-- The `meta` dict of the returned plan (absent keys are `none`). -/
structure PlanMeta : Type where
  similarity : ℚ
  gap_index : ℚ
  message : Option String
  years_left : Option ℚ
  max_hours_requested : Option ℚ
  utilization_percent : Option ℚ

/-- The returned learning-path payload. -/
structure PlanResult : Type where
  employee_id : ℕ
  goal_id : ℕ
  items : List PathItem
  total_hours : ℚ
  meta : PlanMeta

/-- Mutable state of the scheduling `while` loop. -/
structure OuterSt : Type where
  skills_sorted : List (ℕ × ℚ)
  total_minutes : ℚ
  path_items : List PathItem
  added : List ℕ
  counts : List (ℕ × (ℕ × ℤ))
  modulesDb : List LearningModule
  next_id : ℕ
  gen_calls : ℕ
  iter_no_progress : ℕ

/-- State of the inner `for m in modules` allocation loop, plus the
`module_added` flag and whether the skill's gap closed (head drop). -/
structure AllocSt : Type where
  items : List PathItem
  added : List ℕ
  total : ℚ
  gap_val : ℚ
  module_added : Bool
  closed : Bool

/-- The inner `for m in modules` loop of `generate_learning_path`: skip
already-added ids; truncate to the remaining budget when it is at least 15
minutes, otherwise break; append the item (`int()` duration), deduct the
fixed 0.5 gap, stop on exhausted budget or closed gap. -/
def allocateModules (max_min : ℚ) (sk : ℕ) (target_level : ℤ) :
    List LearningModule → AllocSt → AllocSt
  | [], st => st
  | m :: rest, st =>
    if m.module_id ∈ st.added then allocateModules max_min sk target_level rest st
    else
      let module_duration := calculate_module_duration m target_level st.gap_val
      let remaining := max_min - st.total
      if module_duration > remaining ∧ remaining < 15 then st
      else
        let dur := if module_duration > remaining then remaining else module_duration
        let item : PathItem :=
          { skill_id := sk
            module_id := m.module_id
            title := m.title
            description := m.description
            order := st.items.length + 1
            expected_gain := min st.gap_val (1/2)
            duration_minutes := pyInt dur
            is_generated := m.is_generated }
        let st1 : AllocSt :=
          { items := st.items ++ [item]
            added := st.added ++ [m.module_id]
            total := st.total + dur
            gap_val := st.gap_val - 1/2
            module_added := true
            closed := false }
        if st1.total ≥ max_min then st1
        else if st1.gap_val ≤ 0 then { st1 with closed := true }
        else allocateModules max_min sk target_level rest st1

/-- Outcome of one iteration of the `while` loop: continue or `break`. -/
inductive StepRes : Type
  | cont (st : OuterSt)
  | halt (st : OuterSt)

/-- Result state of a step, whichever way it ended. -/
def StepRes.state : StepRes → OuterSt
  | .cont st => st
  | .halt st => st

/-- One generation-oracle invocation inside the module-selection step: build
and commit the module on success (it is offered as candidate only if its id is
not already in the plan); count the call either way. -/
def runGen (skill_id : ℕ) (target_level : ℤ) (theta : ℚ) (oracle : GenOracle)
    (stG : OuterSt) (c : ℕ × ℤ) : List LearningModule × OuterSt :=
  match oracle stG.gen_calls ⟨skill_id, target_level, theta, c.1, c.2⟩ with
  | some content =>
    let m := buildGeneratedModule stG.next_id skill_id target_level content
    let st2 := { stG with
      modulesDb := stG.modulesDb ++ [m]
      next_id := stG.next_id + 1
      gen_calls := stG.gen_calls + 1 }
    (if m.module_id ∈ stG.added then [] else [m], st2)
  | none => ([], { stG with gen_calls := stG.gen_calls + 1 })

/-- Candidate-module selection of one `while` iteration: existing modules
tagged with the skill (difficulty-sorted, already-added excluded); if none and
the LLM is configured and the skill row exists, one on-demand generation
(bumping the per-skill module counter); if still none, the
`module_metadata["skill_id"]` fallback query. -/
def selectModules (ctx : RecCtx) (st : OuterSt) (skill_id : ℕ) (target_level : ℤ)
    (theta : ℚ) : List LearningModule × OuterSt :=
  let cands := sortModulesByDifficulty (st.modulesDb.filter (fun m =>
    m.module_id ∉ st.added ∧ m.skills ≠ [] ∧ skill_id ∈ m.skills))
  let genStep : List LearningModule × OuterSt :=
    if cands.isEmpty then
      match ctx.llm with
      | some oracle =>
        if skill_id ∈ ctx.skills then
          match dictGet st.counts skill_id with
          | some c =>
            let c1 := (c.1 + 1, c.2)
            runGen skill_id target_level theta oracle
              { st with counts := dictSet st.counts skill_id c1 } c1
          | none => runGen skill_id target_level theta oracle st (1, 1)
        else (cands, st)
      | none => (cands, st)
    else (cands, st)
  let cands2 :=
    if genStep.1.isEmpty then
      genStep.2.modulesDb.filter (fun m =>
        m.metadata.isSome ∧ (m.metadata.bind (·.skill_id)) = some skill_id ∧
          m.module_id ∉ genStep.2.added)
    else genStep.1
  (cands2, genStep.2)

/-- One iteration of the scheduling `while` loop: re-sort the positive
remaining gaps, pick the head skill, select candidate modules, run the
allocation loop, then update the skill list and the stall counter. -/
def outerStep (ctx : RecCtx) (profile : RecProfile) (max_min : ℚ) (st : OuterSt) : StepRes :=
  let ss := sortDescVal (st.skills_sorted.filter (fun p => p.2 > 0))
  match ss with
  | [] => .halt { st with skills_sorted := [] }
  | (skill_id, gap_val) :: tail =>
    if gap_val ≤ 0 then .cont { st with skills_sorted := tail }
    else
      let entry := dictGet profile skill_id
      let theta := (entry.bind (·.theta)).getD 0
      let current_level := (entry.bind (·.level)).getD theta
      let target_level : ℤ := min 5 (max 1 (pyInt (current_level + gap_val)))
      let sel := selectModules ctx st skill_id target_level theta
      let stG := sel.2
      let res := allocateModules max_min skill_id target_level sel.1
        ⟨stG.path_items, stG.added, stG.total_minutes, gap_val, false, false⟩
      let skills1 :=
        if res.closed then tail
        else if res.module_added then (skill_id, res.gap_val) :: tail
        else tail
      if res.module_added then
        .cont { stG with
          skills_sorted := skills1
          path_items := res.items
          added := res.added
          total_minutes := res.total
          iter_no_progress := 0 }
      else
        let inp := stG.iter_no_progress + 1
        if inp > skills1.length then
          .halt { stG with skills_sorted := skills1, iter_no_progress := inp }
        else
          .cont { stG with skills_sorted := skills1, iter_no_progress := inp }

/-- The scheduling `while` loop; the fuel is `max_iterations`
(`len(skills_sorted) * 10`), matching the `iteration` counter. -/
def outerLoop (ctx : RecCtx) (profile : RecProfile) (max_min : ℚ) :
    ℕ → OuterSt → OuterSt
  | 0, st => st
  | fuel + 1, st =>
    if st.total_minutes < max_min then
      match outerStep ctx profile max_min st with
      | .halt s => s
      | .cont s => outerLoop ctx profile max_min fuel s
    else st

/-- `RecommenderService.generate_learning_path(employee_id, goal_id,
max_hours=40.0)`. -/
def generate_learning_path (ctx : RecCtx) (employee_id goal_id : ℕ)
    (gaps : GapsOutcome) (max_hours : ℚ := 40) : Except SMError PlanResult :=
  match dictGet ctx.employees employee_id with
  | none => .error .notFound
  | some emp =>
    match dictGet ctx.goals goal_id with
    | none => .error .notFound
    | some goal =>
      let years_left := yearsLeft goal.time_horizon_year ctx.current_year
      let scalar_gaps := gaps.scalar_gaps
      if scalar_gaps.isEmpty then
        .ok
          { employee_id := employee_id
            goal_id := goal_id
            items := []
            total_hours := 0
            meta :=
              { similarity := gaps.similarity
                gap_index := gaps.gap_index
                message := some (gaps.message.getD
                  "No skills extracted for this goal. Please extract skills first.")
                years_left := years_left
                max_hours_requested := none
                utilization_percent := none } }
      else
        let skills_sorted := sortDescVal scalar_gaps
        let max_min := max_hours * 60
        let max_iterations := skills_sorted.length * 10
        let counts := scalar_gaps.map (fun p => (p.1, ((0:ℕ), max 1 (pyInt (p.2 / (1/2))))))
        let st0 : OuterSt :=
          { skills_sorted := skills_sorted
            total_minutes := 0
            path_items := []
            added := []
            counts := counts
            modulesDb := ctx.modules
            next_id := ctx.next_module_id
            gen_calls := 0
            iter_no_progress := 0 }
        let stF := outerLoop ctx emp.cognitive_profile max_min max_iterations st0
        let meta_message : Option String :=
          if stF.path_items.isEmpty then
            if scalar_gaps.any (fun p => p.2 > 0) then
              some "AI identified skill gaps for this employee, but no learning modules could be matched or generated. Please add or tag learning modules for the required skills or ensure your OpenAI key is configured so SkillMap AI can generate modules on-demand."
            else
              some "AI analysis indicates the employee already meets the required skill levels for this goal. No learning items are needed."
          else none
        .ok
          { employee_id := employee_id
            goal_id := goal_id
            items := stF.path_items
            total_hours := pyRound2 (stF.total_minutes / 60)
            meta :=
              { similarity := gaps.similarity
                gap_index := gaps.gap_index
                message := meta_message
                years_left := years_left
                max_hours_requested := some max_hours
                utilization_percent :=
                  some (if max_hours > 0 then pyRound1 ((stF.total_minutes / (max_hours * 60)) * 100) else 0) } }

/-! ### Verification predicates for the scheduler -/

/-- Plan-items invariant: pairwise-distinct module ids, all recorded in the
`added_module_ids` set. -/
def ItemsNodup (items : List PathItem) (added : List ℕ) : Prop :=
  (items.map (·.module_id)).Nodup ∧ ∀ i ∈ items, i.module_id ∈ added

/-- Budget invariant: the stored integer durations sum to at most the
running float total, which never exceeds the budget. -/
def BudgetOk (max_min : ℚ) (items : List PathItem) (total : ℚ) : Prop :=
  ((items.map (fun i => (i.duration_minutes : ℚ))).sum ≤ total) ∧ total ≤ max_min

/-! ### Concrete fixtures used by witnesses and counterexamples -/

/-- A stored module of duration 100 minutes tagged with skill 1. -/
def mBig : LearningModule := ⟨7, "M", "D", some 100, some 2, [1], none, false⟩

/-- A context with one employee (id 1), one goal (id 2), no modules and no
LLM oracle. -/
def ctxW : RecCtx := ⟨[(1, ⟨[]⟩)], [(2, ⟨none⟩)], [], [], none, 50, 2026⟩

/-- An empty gap analysis (the engine's early-return shape). -/
def gapsEmptyW : GapsOutcome := ⟨[], 0, 0, none⟩

/-- The plan `generate_learning_path` returns for `gapsEmptyW`. -/
def planW : PlanResult :=
  ⟨1, 2, [], 0,
    ⟨0, 0, some "No skills extracted for this goal. Please extract skills first.",
      none, none, none⟩⟩

/-- A one-question fixture (correct option `"a"`, difficulty 2.5). -/
def qFix : Question := ⟨"q1", "Q", [⟨"a", "A"⟩, ⟨"b", "B"⟩], "a", 5/2, "E"⟩

/-- A pending assessment of employee 1 on skill 5 with one question. -/
def aPend : Assessment := ⟨1, 5, [qFix], [], [], 0, 0, 0, "pending", none⟩

/-- An already-completed assessment of employee 1. -/
def aDone : Assessment := ⟨1, 5, [qFix], [], [], 0, 0, 0, "completed", none⟩

/-- A pending assessment of employee 1 with zero questions. -/
def aEmptyQ : Assessment := ⟨1, 5, [], [], [], 0, 0, 0, "pending", none⟩

/-- State with the three assessments above and an (empty) profile row for
employee 1. -/
def sFix : SubmitState := ⟨[(2, aPend), (3, aDone), (4, aEmptyQ)], [(1, [])]⟩

/-- State with a pending assessment but no profile row for employee 1. -/
def sNoProf : SubmitState := ⟨[(2, aPend)], []⟩

/-! ### Helper lemmas -/

theorem dictGet_dictSet_self {κ α : Type} [DecidableEq κ] (l : List (κ × α)) (k : κ) (v : α) :
    dictGet (dictSet l k v) k = some v := by
  induction l with
  | nil => simp [dictGet, dictSet]
  | cons h t ih =>
    obtain ⟨k', v'⟩ := h
    by_cases hk : k' = k
    · subst hk; simp [dictGet, dictSet]
    · simp [dictGet, dictSet, hk, ih]

theorem dictGet_dictSet_ne {κ α : Type} [DecidableEq κ] (l : List (κ × α)) (k k' : κ) (v : α)
    (h : k ≠ k') : dictGet (dictSet l k v) k' = dictGet l k' := by
  induction l with
  | nil => simp [dictGet, dictSet, h]
  | cons hd t ih =>
    obtain ⟨k0, v0⟩ := hd
    by_cases hk : k0 = k
    · subst hk; simp [dictGet, dictSet, h]
    · simp only [dictSet, if_neg hk, dictGet]
      by_cases hk' : k0 = k'
      · simp [hk']
      · simp [hk', ih]

theorem pyInt_le_of_nonneg (q : ℚ) (h : 0 ≤ q) : (pyInt q : ℚ) ≤ q := by
  rw [pyInt, if_neg (not_lt.mpr h)]
  exact Int.floor_le q

theorem pyInt_intCast (n : ℤ) : pyInt (n : ℚ) = n := by
  rcases lt_or_ge ((n : ℚ)) 0 with h | h
  · rw [pyInt, if_pos h, ← Int.cast_neg, Int.floor_intCast, neg_neg]
  · rw [pyInt, if_neg (not_lt.mpr h), Int.floor_intCast]

theorem pyLower_empty : pyLower "" = "" := rfl

theorem pyLower_ne_empty (s : String) (h : s ≠ "") : pyLower s ≠ "" := by
  intro hc
  apply h
  have h2 : (String.mk (s.data.map Char.toLower)).data = ("" : String).data := by
    rw [pyLower] at hc; rw [hc]
  simp only [String.data] at h2
  have h3 : s.data = [] := by simpa using h2
  cases s with
  | mk l => simp_all

/-! ### IRT lemmas -/

theorem irt_probability_pos (theta alpha beta : ℝ) : 0 < irt_probability theta alpha beta := by
  rw [irt_probability]
  have h := Real.exp_pos (-(alpha * (theta - beta)))
  positivity

theorem irt_probability_lt_one (theta alpha beta : ℝ) : irt_probability theta alpha beta < 1 := by
  rw [irt_probability]
  have h := Real.exp_pos (-(alpha * (theta - beta)))
  rw [div_lt_one (by linarith)]
  linarith

theorem foldl_add_neg (f : IrtResponse → ℝ) :
    ∀ (l : List IrtResponse) (c : ℝ), l ≠ [] → (∀ r ∈ l, f r < 0) →
      l.foldl (fun g r => g + f r) c < c := by
  intro l
  induction l with
  | nil => simp
  | cons x t ih =>
    intro c _ hall
    have hx : f x < 0 := hall x (by simp)
    by_cases ht : t = []
    · subst ht; simpa using (by linarith : c + f x < c)
    · have h1 : t.foldl (fun g r => g + f r) (c + f x) < c + f x :=
        ih (c + f x) ht (fun r hr => hall r (by simp [hr]))
      simp only [List.foldl_cons]
      linarith

theorem foldl_add_pos (f : IrtResponse → ℝ) :
    ∀ (l : List IrtResponse) (c : ℝ), l ≠ [] → (∀ r ∈ l, 0 < f r) →
      c < l.foldl (fun g r => g + f r) c := by
  intro l
  induction l with
  | nil => simp
  | cons x t ih =>
    intro c _ hall
    have hx : 0 < f x := hall x (by simp)
    by_cases ht : t = []
    · subst ht; simpa using (by linarith : c < c + f x)
    · have h1 : c + f x < t.foldl (fun g r => g + f r) (c + f x) :=
        ih (c + f x) ht (fun r hr => hall r (by simp [hr]))
      simp only [List.foldl_cons]
      linarith

theorem irtGrad_neg (rs : List IrtResponse) (t : ℝ) (hne : rs ≠ [])
    (halpha : ∀ r ∈ rs, 0 < r.alpha) (hcor : ∀ r ∈ rs, r.correct = false) :
    irtGrad rs t < 0 := by
  rw [irtGrad]
  exact foldl_add_neg _ rs 0 hne (fun r hr => by
    rw [hcor r hr]
    have hp := irt_probability_pos t r.alpha r.beta
    have ha := halpha r hr
    simp only [Bool.false_eq_true, if_neg (by simp : ¬False)]
    have hm : (0 - irt_probability t r.alpha r.beta) * r.alpha =
        -(irt_probability t r.alpha r.beta * r.alpha) := by ring
    rw [hm]
    have := mul_pos hp ha
    linarith)

theorem irtGrad_pos (rs : List IrtResponse) (t : ℝ) (hne : rs ≠ [])
    (halpha : ∀ r ∈ rs, 0 < r.alpha) (hcor : ∀ r ∈ rs, r.correct = true) :
    0 < irtGrad rs t := by
  rw [irtGrad]
  exact foldl_add_pos _ rs 0 hne (fun r hr => by
    rw [hcor r hr]
    have hp := irt_probability_lt_one t r.alpha r.beta
    have ha := halpha r hr
    simp only [if_pos trivial]
    exact mul_pos (sub_pos.mpr hp) ha)

theorem iterate_lt_of_lt (f : ℝ → ℝ) (hf : ∀ t, f t < t) :
    ∀ n, 0 < n → ∀ theta, f^[n] theta < theta := by
  intro n
  induction n with
  | zero => intro h; exact absurd h (by norm_num)
  | succ m ih =>
    intro _ theta
    rcases Nat.eq_zero_or_pos m with hm | hm
    · subst hm; simpa using hf theta
    · calc f^[m+1] theta = f^[m] (f theta) := Function.iterate_succ_apply f m theta
        _ < f theta := ih hm (f theta)
        _ < theta := hf theta

theorem iterate_gt_of_gt (f : ℝ → ℝ) (hf : ∀ t, t < f t) :
    ∀ n, 0 < n → ∀ theta, theta < f^[n] theta := by
  intro n
  induction n with
  | zero => intro h; exact absurd h (by norm_num)
  | succ m ih =>
    intro _ theta
    rcases Nat.eq_zero_or_pos m with hm | hm
    · subst hm; simpa using hf theta
    · calc theta < f theta := hf theta
        _ < f^[m] (f theta) := ih hm (f theta)
        _ = f^[m+1] theta := (Function.iterate_succ_apply f m theta).symm

/-! ### Claim theorems -/

/-- C6: for every initial theta and non-empty response batch with positive
discriminations, an all-incorrect batch strictly decreases the theta returned
by `_update_theta`, and an all-correct batch strictly increases it. -/
theorem update_theta_strict_monotone (theta : ℝ) (rs : List IrtResponse) (hne : rs ≠ [])
    (halpha : ∀ r ∈ rs, 0 < r.alpha) :
    ((∀ r ∈ rs, r.correct = false) → update_theta theta rs < theta) ∧
    ((∀ r ∈ rs, r.correct = true) → theta < update_theta theta rs) := by
  constructor
  · intro hcor
    rw [update_theta]
    refine iterate_lt_of_lt _ (fun t => ?_) 15 (by norm_num) theta
    rw [thetaStep]
    have hg := irtGrad_neg rs t hne halpha hcor
    nlinarith
  · intro hcor
    rw [update_theta]
    refine iterate_gt_of_gt _ (fun t => ?_) 15 (by norm_num) theta
    rw [thetaStep]
    have hg := irtGrad_pos rs t hne halpha hcor
    nlinarith

/-- Witness for C6 at `theta0 = 0` with a single response of discrimination 1
and difficulty 0, once incorrect and once correct. -/
theorem update_theta_strict_monotone_witness :
    update_theta 0 [⟨1, 0, false⟩] < 0 ∧ (0 : ℝ) < update_theta 0 [⟨1, 0, true⟩] := by
  constructor
  · exact (update_theta_strict_monotone 0 [⟨1, 0, false⟩] (by simp)
      (by rintro r hr; simp only [List.mem_singleton] at hr; subst hr; norm_num)).1
      (by rintro r hr; simp only [List.mem_singleton] at hr; subst hr; rfl)
  · exact (update_theta_strict_monotone 0 [⟨1, 0, true⟩] (by simp)
      (by rintro r hr; simp only [List.mem_singleton] at hr; subst hr; norm_num)).2
      (by rintro r hr; simp only [List.mem_singleton] at hr; subst hr; rfl)

/-- C1 (amended): on the successful path with non-empty scalar gaps, the gap
index equals `(1 - similarity)` plus `sum(gaps) / (count + 1e-8)` — the mean
with the `1e-8` guard in the denominator, not the exact arithmetic mean. -/
theorem gap_index_eps_mean (store : ℕ → Option (List ℝ)) (skill_ids : List ℕ)
    (weights : List ℝ) (current_levels : List (ℕ × ℝ)) (scalar_gaps : List (ℕ × ℝ))
    (hne : scalar_gaps ≠ []) :
    (gaps_for_employee_core store skill_ids weights current_levels scalar_gaps).gap_index =
      (1 - (gaps_for_employee_core store skill_ids weights current_levels scalar_gaps).similarity) +
        (scalar_gaps.map (·.2)).sum / ((scalar_gaps.length : ℝ) + gapEps) := by
  have h : scalar_gaps.isEmpty = false := by
    cases scalar_gaps with
    | nil => exact absurd rfl hne
    | cons a t => rfl
  simp [gaps_for_employee_core, h]

/-- Witness for C1's amended theorem on a one-gap analysis with an empty
vector store. -/
theorem gap_index_eps_mean_witness :
    (gaps_for_employee_core (fun _ => none) [1] [1] [(1, 2)] [(1, 2)]).gap_index =
      (1 - (gaps_for_employee_core (fun _ => none) [1] [1] [(1, 2)] [(1, 2)]).similarity) +
        (([((1:ℕ), (2:ℝ))].map (·.2)).sum / ((([((1:ℕ), (2:ℝ))].length : ℕ) : ℝ) + gapEps)) :=
  gap_index_eps_mean (fun _ => none) [1] [1] [(1, 2)] [(1, 2)] (by simp)

/-- Counterexample to C1 as stated: with one scalar gap of value 2 and an
empty vector store (similarity 0), the returned `gap_index` is
`1 + 2/(1 + 1e-8)`, which differs from `(1 - similarity)` plus the exact
arithmetic mean `2`. -/
theorem gap_index_not_exact_mean_counterexample :
    (gaps_for_employee_core (fun _ => none) [1] [1] [(1, 2)] [(1, 2)]).gap_index ≠
      (1 - (gaps_for_employee_core (fun _ => none) [1] [1] [(1, 2)] [(1, 2)]).similarity) + 2 := by
  simp only [gaps_for_employee_core, bundle_embedding, similarity_fn, gapEps,
    List.zip_cons_cons, List.zip_nil_right, List.filterMap, Option.map_none]
  norm_num

theorem groupInsert_keys (acc : List (ℕ × List AssessItem)) (a : AssessItem) :
    (groupInsert acc a).map Prod.fst =
      if a.skill_id ∈ acc.map Prod.fst then acc.map Prod.fst
      else acc.map Prod.fst ++ [a.skill_id] := by
  induction acc with
  | nil => simp [groupInsert]
  | cons hd t ih =>
    obtain ⟨k, l⟩ := hd
    by_cases hk : k = a.skill_id
    · subst hk; simp [groupInsert]
    · simp only [groupInsert, if_neg hk, List.map_cons]
      rw [ih]
      by_cases hm : a.skill_id ∈ t.map Prod.fst
      · simp [hm, Ne.symm hk]
      · simp [hm, Ne.symm hk]

theorem foldl_groupInsert_keys_nodup :
    ∀ (items : List AssessItem) (acc : List (ℕ × List AssessItem)),
      (acc.map Prod.fst).Nodup → ((items.foldl groupInsert acc).map Prod.fst).Nodup := by
  intro items
  induction items with
  | nil => intro acc h; simpa using h
  | cons a t ih =>
    intro acc h
    simp only [List.foldl_cons]
    apply ih
    rw [groupInsert_keys]
    by_cases hm : a.skill_id ∈ acc.map Prod.fst
    · simpa [hm] using h
    · simp [hm, List.nodup_append, h]

theorem groupItems_keys_nodup (items : List AssessItem) :
    ((groupItems items).map Prod.fst).Nodup :=
  foldl_groupInsert_keys_nodup items [] (by simp)

theorem dictGet_applyGroup_ne (prof : Profile) (sk : ℕ) (its : List AssessItem) (k : ℕ)
    (h : sk ≠ k) : dictGet (applyGroup prof sk its) k = dictGet prof k := by
  simp only [applyGroup]
  exact dictGet_dictSet_ne _ _ _ _ h

theorem dictGet_foldl_applyGroup_notmem :
    ∀ (groups : List (ℕ × List AssessItem)) (prof : Profile) (k : ℕ),
      k ∉ groups.map Prod.fst →
      dictGet (groups.foldl (fun p g => applyGroup p g.1 g.2) prof) k = dictGet prof k := by
  intro groups
  induction groups with
  | nil => intro prof k _; simp
  | cons g t ih =>
    intro prof k hk
    simp only [List.map_cons, List.mem_cons] at hk
    push_neg at hk
    simp only [List.foldl_cons]
    rw [ih _ k hk.2, dictGet_applyGroup_ne _ _ _ _ (fun he => hk.1 he.symm)]

theorem dictGet_foldl_applyGroup :
    ∀ (groups : List (ℕ × List AssessItem)) (prof : Profile),
      ((groups.map Prod.fst).Nodup) → ∀ g ∈ groups,
      dictGet (groups.foldl (fun p gr => applyGroup p gr.1 gr.2) prof) g.1 =
        (let st0 := (dictGet prof g.1).getD ⟨0, 1, 0⟩
         let thetaF := update_theta st0.theta
           (g.2.map (fun i => IrtResponse.mk st0.alpha i.difficulty i.correct))
         some ⟨thetaF, st0.alpha, levelOfTheta thetaF⟩) := by
  intro groups
  induction groups with
  | nil => intro prof _ g hg; simp at hg
  | cons hd t ih =>
    intro prof hnd g hg
    simp only [List.map_cons, List.nodup_cons] at hnd
    rcases List.mem_cons.mp hg with hg1 | hg2
    · subst hg1
      simp only [List.foldl_cons]
      rw [dictGet_foldl_applyGroup_notmem t _ g.1 hnd.1]
      simp only [applyGroup]
      exact dictGet_dictSet_self _ _ _
    · have hne : hd.1 ≠ g.1 := by
        intro he
        exact hnd.1 (he ▸ List.mem_map_of_mem Prod.fst hg2)
      simp only [List.foldl_cons]
      rw [ih (applyGroup prof hd.1 hd.2) hnd.2 g hg2,
        dictGet_applyGroup_ne prof hd.1 hd.2 g.1 hne]

/-- C5: `_update_theta` is exactly 15 gradient-ascent iterations at learning
rate 0.01 of the accumulated 2PL gradient (hence a deterministic function of
its inputs), and for every skill group of an `update_profile` call the stored
level is `max(0, min(5, ((theta_final + 3)/6)*5))` of the final theta. -/
theorem update_theta_steps_and_level :
    (∀ (theta : ℝ) (rs : List IrtResponse),
      update_theta theta rs = (fun t => t + (1/100) * irtGrad rs t)^[15] theta) ∧
    (∀ (prof : Profile) (items : List AssessItem) (g : ℕ × List AssessItem),
      g ∈ groupItems items →
      dictGet (update_profile_fn prof items) g.1 =
        (let st0 := (dictGet prof g.1).getD ⟨0, 1, 0⟩
         let thetaF := update_theta st0.theta
           (g.2.map (fun i => IrtResponse.mk st0.alpha i.difficulty i.correct))
         some ⟨thetaF, st0.alpha, max 0 (min 5 ((thetaF + 3) / 6 * 5))⟩)) := by
  constructor
  · intro theta rs; rfl
  · intro prof items g hg
    rw [update_profile_fn]
    exact dictGet_foldl_applyGroup (groupItems items) prof (groupItems_keys_nodup items) g hg

/-- Witness for C5: the iterate identity at `theta0 = 0` with one response,
and the stored entry for the one-item profile update of skill 1. -/
theorem update_theta_steps_and_level_witness :
    (update_theta 0 [⟨1, 0, true⟩] =
      (fun t => t + (1/100) * irtGrad [⟨1, 0, true⟩] t)^[15] 0) ∧
    (dictGet (update_profile_fn [] [⟨1, (5/2 : ℝ), true⟩]) 1 =
      (let st0 := (dictGet ([] : Profile) 1).getD ⟨0, 1, 0⟩
       let thetaF := update_theta st0.theta
         ([AssessItem.mk 1 (5/2 : ℝ) true].map
           (fun i => IrtResponse.mk st0.alpha i.difficulty i.correct))
       some ⟨thetaF, st0.alpha, max 0 (min 5 ((thetaF + 3) / 6 * 5))⟩)) := by
  constructor
  · exact update_theta_steps_and_level.1 0 [⟨1, 0, true⟩]
  · exact update_theta_steps_and_level.2 [] [⟨1, (5/2 : ℝ), true⟩] (1, [⟨1, (5/2 : ℝ), true⟩])
      (by simp [groupItems, groupInsert])

theorem foldl_groupInsert_const (sk : ℕ) :
    ∀ (items l : List AssessItem), (∀ i ∈ items, i.skill_id = sk) →
      items.foldl groupInsert [(sk, l)] = [(sk, l ++ items)] := by
  intro items
  induction items with
  | nil => intro l _; simp
  | cons a t ih =>
    intro l hall
    have ha : a.skill_id = sk := hall a (by simp)
    simp only [List.foldl_cons, groupInsert, if_pos ha.symm]
    rw [ih (l ++ [a]) (fun i hi => hall i (by simp [hi]))]
    simp

theorem groupItems_const (sk : ℕ) (items : List AssessItem) (hne : items ≠ [])
    (hall : ∀ i ∈ items, i.skill_id = sk) : groupItems items = [(sk, items)] := by
  cases items with
  | nil => exact absurd rfl hne
  | cons a t =>
    have ha : a.skill_id = sk := hall a (by simp)
    simp only [groupItems, List.foldl_cons, groupInsert, ha]
    rw [foldl_groupInsert_const sk t [a] (fun i hi => hall i (by simp [hi]))]
    simp

theorem update_profile_fn_const (p : Profile) (sk : ℕ) (items : List AssessItem)
    (hne : items ≠ []) (hall : ∀ i ∈ items, i.skill_id = sk) :
    update_profile_fn p items = applyGroup p sk items := by
  rw [update_profile_fn, groupItems_const sk items hne hall]
  simp

theorem irtItemsOf_skill (sk : ℕ) (ans : List (String × String)) (qs : List Question) :
    ∀ i ∈ irtItemsOf sk ans qs, i.skill_id = sk := by
  intro i hi
  simp only [irtItemsOf, List.mem_map] at hi
  obtain ⟨q, _, hq⟩ := hi
  rw [← hq]

theorem irtItemsOf_ne_nil (sk : ℕ) (ans : List (String × String)) (qs : List Question)
    (h : qs ≠ []) : irtItemsOf sk ans qs ≠ [] := by
  simp [irtItemsOf, h]

theorem isEmpty_false_of_ne_nil {α : Type} (l : List α) (h : l ≠ []) : l.isEmpty = false := by
  cases l with
  | nil => exact absurd rfl h
  | cons a t => rfl

theorem submit_assessment_eq_ok (s : SubmitState) (aid emp : ℕ)
    (ans : List (String × String)) (now : ℕ) (a : Assessment)
    (h1 : dictGet s.assessments aid = some a) (h2 : a.employee_id = emp)
    (h3 : a.status ≠ "completed") (h4 : a.questions ≠ []) :
    submit_assessment s aid emp ans now = .ok (submitCore s aid a emp ans now) := by
  simp only [submit_assessment, h1]
  rw [if_neg (by simp [h2]), if_neg h3,
    if_neg (by simp [isEmpty_false_of_ne_nil _ h4])]

/-- Shape of the submit happy path when the employee profile row exists:
grading, banding, the single IRT profile write, the level overwrite and
the completed assessment record, all made explicit. -/
theorem submitCore_profile_present (s : SubmitState) (aid : ℕ) (a : Assessment)
    (emp : ℕ) (ans : List (String × String)) (now : ℕ) (p : Profile)
    (hp : dictGet s.profiles emp = some p) (hq : a.questions ≠ []) :
    submitCore s aid a emp ans now =
      (let qs := a.questions
       let correct_count := qs.countP (gradeAnswer ans)
       let percentage : ℚ := ((correct_count : ℚ) / (qs.length : ℚ)) * 100
       let proficiency_score := bandScore percentage
       let items := irtItemsOf a.skill_id ans qs
       let st0 := (dictGet p a.skill_id).getD ⟨0, 1, 0⟩
       let thetaF := update_theta st0.theta
         (items.map (fun i => IrtResponse.mk st0.alpha i.difficulty i.correct))
       let newSt : SkillState := ⟨thetaF, st0.alpha, levelOfTheta thetaF⟩
       let prof1 := dictSet p a.skill_id newSt
       let up := clamp05 (reconcile percentage proficiency_score newSt.level)
       let prof2 := dictSet prof1 a.skill_id ⟨newSt.theta, newSt.alpha, up⟩
       (⟨dictSet s.assessments aid
           { a with
             answers := ans
             correct_answers := qs.map (fun q => (q.question_id, q.correct_answer_id))
             score := proficiency_score
             status := "completed"
             completed_at := some now },
         dictSet (dictSet s.profiles emp prof1) emp prof2⟩,
        { assessment_id := aid
          skill_id := a.skill_id
          score := proficiency_score
          percentage_correct := percentage
          total_questions := qs.length
          correct_answers_count := correct_count
          questions_with_feedback := feedbackOf ans qs
          updated_proficiency := up })) := by
  have hitems := irtItemsOf_ne_nil a.skill_id ans a.questions hq
  have hfn : update_profile_fn p (irtItemsOf a.skill_id ans a.questions) =
      applyGroup p a.skill_id (irtItemsOf a.skill_id ans a.questions) :=
    update_profile_fn_const p a.skill_id _ hitems (irtItemsOf_skill _ _ _)
  have hlen : (0 : ℕ) < a.questions.length := List.length_pos.mpr hq
  simp only [submitCore, update_profile, hp, hfn, applyGroup,
    dictGet_dictSet_self, Option.map_some, Option.getD_some, if_pos hlen]
  rfl

theorem submit_conflict_of_completed (s : SubmitState) (aid emp : ℕ)
    (ans : List (String × String)) (now : ℕ) (a : Assessment)
    (h1 : dictGet s.assessments aid = some a) (h2 : a.employee_id = emp)
    (h3 : a.status = "completed") :
    submit_assessment s aid emp ans now = .error .conflict := by
  simp only [submit_assessment, h1]
  rw [if_neg (by simp [h2]), if_pos h3]

theorem feedbackOf_map_is_correct (ans : List (String × String)) (qs : List Question) :
    (feedbackOf ans qs).map (·.is_correct) = qs.map (gradeAnswer ans) := by
  simp [feedbackOf, List.map_map]

/-- C2: submitting a missing assessment fails `NotFoundError`; a wrong-owner
submit fails `AuthorizationError`; a completed one fails `ConflictError`; a
zero-question one fails `ValidationError`; and on the happy path the first
submit completes the assessment, a second submit of the same id fails
`ConflictError`, and the employee's profile is written exactly once across
the two calls (the second returns no state). -/
theorem submit_assessment_guards_and_idempotency (s : SubmitState) (aid emp : ℕ)
    (ans ans2 : List (String × String)) (now now2 : ℕ) :
    (dictGet s.assessments aid = none →
      submit_assessment s aid emp ans now = .error .notFound) ∧
    (∀ a, dictGet s.assessments aid = some a → a.employee_id ≠ emp →
      submit_assessment s aid emp ans now = .error .authorization) ∧
    (∀ a, dictGet s.assessments aid = some a → a.employee_id = emp →
      a.status = "completed" →
      submit_assessment s aid emp ans now = .error .conflict) ∧
    (∀ a, dictGet s.assessments aid = some a → a.employee_id = emp →
      a.status ≠ "completed" → a.questions = [] →
      submit_assessment s aid emp ans now = .error .validation) ∧
    (∀ a p, dictGet s.assessments aid = some a → a.employee_id = emp →
      a.status ≠ "completed" → a.questions ≠ [] → dictGet s.profiles emp = some p →
      ∃ s1 r, submit_assessment s aid emp ans now = .ok (s1, r) ∧
        (∃ a1, dictGet s1.assessments aid = some a1 ∧ a1.status = "completed") ∧
        submit_assessment s1 aid emp ans2 now2 = .error .conflict ∧
        (∃ st1, dictGet (update_profile_fn p (irtItemsOf a.skill_id ans a.questions))
            a.skill_id = some st1 ∧
          s1.profiles =
            dictSet
              (dictSet s.profiles emp
                (update_profile_fn p (irtItemsOf a.skill_id ans a.questions)))
              emp
              (dictSet (update_profile_fn p (irtItemsOf a.skill_id ans a.questions))
                a.skill_id ⟨st1.theta, st1.alpha, r.updated_proficiency⟩))) := by
  refine ⟨?_, ?_, ?_, ?_, ?_⟩
  · intro h; simp [submit_assessment, h]
  · intro a h1 h2; simp [submit_assessment, h1, h2]
  · intro a h1 h2 h3; exact submit_conflict_of_completed s aid emp ans now a h1 h2 h3
  · intro a h1 h2 h3 h4
    simp only [submit_assessment, h1]
    rw [if_neg (by simp [h2]), if_neg h3, if_pos (by simp [h4])]
  · intro a p h1 h2 h3 h4 hp
    have hok := submit_assessment_eq_ok s aid emp ans now a h1 h2 h3 h4
    rw [submitCore_profile_present s aid a emp ans now p hp h4] at hok
    have hfn : update_profile_fn p (irtItemsOf a.skill_id ans a.questions) =
        applyGroup p a.skill_id (irtItemsOf a.skill_id ans a.questions) :=
      update_profile_fn_const p a.skill_id _ (irtItemsOf_ne_nil _ _ _ h4)
        (irtItemsOf_skill _ _ _)
    refine ⟨_, _, hok, ⟨_, dictGet_dictSet_self _ _ _, rfl⟩, ?_, ?_⟩
    · exact submit_conflict_of_completed _ aid emp ans2 now2 _
        (dictGet_dictSet_self _ _ _) h2 rfl
    · rw [hfn]
      simp only [applyGroup]
      exact ⟨_, dictGet_dictSet_self _ _ _, rfl⟩

/-- Witness for C2: each of the five guard scenarios at a concrete state. -/
theorem submit_assessment_guards_and_idempotency_witness :
    (submit_assessment sFix 99 1 [] 0 = .error .notFound) ∧
    (submit_assessment sFix 2 7 [] 0 = .error .authorization) ∧
    (submit_assessment sFix 3 1 [] 0 = .error .conflict) ∧
    (submit_assessment sFix 4 1 [] 0 = .error .validation) ∧
    (∃ s1 r, submit_assessment sFix 2 1 [] 0 = .ok (s1, r) ∧
      (∃ a1, dictGet s1.assessments 2 = some a1 ∧ a1.status = "completed") ∧
      submit_assessment s1 2 1 [] 1 = .error .conflict ∧
      (∃ st1, dictGet (update_profile_fn [] (irtItemsOf aPend.skill_id [] aPend.questions))
          aPend.skill_id = some st1 ∧
        s1.profiles =
          dictSet
            (dictSet sFix.profiles 1
              (update_profile_fn [] (irtItemsOf aPend.skill_id [] aPend.questions)))
            1
            (dictSet (update_profile_fn [] (irtItemsOf aPend.skill_id [] aPend.questions))
              aPend.skill_id ⟨st1.theta, st1.alpha, r.updated_proficiency⟩))) := by
  refine ⟨?_, ?_, ?_, ?_, ?_⟩
  · exact (submit_assessment_guards_and_idempotency sFix 99 1 [] [] 0 0).1
      (by simp [sFix, dictGet])
  · exact (submit_assessment_guards_and_idempotency sFix 2 7 [] [] 0 0).2.1 aPend
      (by simp [sFix, dictGet]) (by simp [aPend])
  · exact (submit_assessment_guards_and_idempotency sFix 3 1 [] [] 0 0).2.2.1 aDone
      (by simp [sFix, dictGet]) rfl rfl
  · exact (submit_assessment_guards_and_idempotency sFix 4 1 [] [] 0 0).2.2.2.1 aEmptyQ
      (by simp [sFix, dictGet]) rfl (by simp [aEmptyQ]) rfl
  · exact (submit_assessment_guards_and_idempotency sFix 2 1 [] [] 0 1).2.2.2.2 aPend []
      (by simp [sFix, dictGet]) rfl (by simp [aPend]) (by simp [aPend, qFix])
      (by simp [sFix, dictGet])

/-- C4: submit maps the percentage of correct answers through the half-open
bands `[0,20)→1, [20,40)→2, [40,60)→3, [60,80)→4, [80,100]→5`, reconciles it
with the IRT level (`max` at ≥80, average at [60,80), trust-IRT below),
clamps to [0,5], and persists the result as the skill's level in the
employee's profile, overwriting the previous value. -/
theorem submit_assessment_band_reconcile_persist (s : SubmitState) (aid emp : ℕ)
    (ans : List (String × String)) (now : ℕ) (a : Assessment) (p : Profile)
    (h1 : dictGet s.assessments aid = some a) (h2 : a.employee_id = emp)
    (h3 : a.status ≠ "completed") (h4 : a.questions ≠ [])
    (hp : dictGet s.profiles emp = some p) :
    (∀ x : ℚ,
      (0 ≤ x → x < 20 → bandScore x = 1) ∧ (20 ≤ x → x < 40 → bandScore x = 2) ∧
      (40 ≤ x → x < 60 → bandScore x = 3) ∧ (60 ≤ x → x < 80 → bandScore x = 4) ∧
      (80 ≤ x → x ≤ 100 → bandScore x = 5)) ∧
    (∃ s1 r, submit_assessment s aid emp ans now = .ok (s1, r) ∧
      r.percentage_correct =
        ((a.questions.countP (gradeAnswer ans) : ℚ) / (a.questions.length : ℚ)) * 100 ∧
      r.score = bandScore r.percentage_correct ∧
      (∃ lvl : ℝ,
        ((dictGet (update_profile_fn p (irtItemsOf a.skill_id ans a.questions))
            a.skill_id).map (·.level)).getD 0 = lvl ∧
        r.updated_proficiency =
          max 0 (min 5
            (if r.percentage_correct ≥ 80 then max (r.score : ℝ) lvl
             else if r.percentage_correct ≥ 60 then ((r.score : ℝ) + lvl) / 2
             else lvl))) ∧
      (∃ prof2 st2, dictGet s1.profiles emp = some prof2 ∧
        dictGet prof2 a.skill_id = some st2 ∧ st2.level = r.updated_proficiency)) := by
  constructor
  · intro x
    refine ⟨fun _ h2 => ?_, fun h h2 => ?_, fun h h2 => ?_, fun h h2 => ?_,
      fun h _ => ?_⟩
    · rw [bandScore, if_pos h2]
    · rw [bandScore, if_neg (by linarith), if_pos h2]
    · rw [bandScore, if_neg (by linarith), if_neg (by linarith), if_pos h2]
    · rw [bandScore, if_neg (by linarith), if_neg (by linarith), if_neg (by linarith),
        if_pos h2]
    · rw [bandScore, if_neg (by linarith), if_neg (by linarith), if_neg (by linarith),
        if_neg (by linarith)]
  · have hok := submit_assessment_eq_ok s aid emp ans now a h1 h2 h3 h4
    rw [submitCore_profile_present s aid a emp ans now p hp h4] at hok
    have hfn : update_profile_fn p (irtItemsOf a.skill_id ans a.questions) =
        applyGroup p a.skill_id (irtItemsOf a.skill_id ans a.questions) :=
      update_profile_fn_const p a.skill_id _ (irtItemsOf_ne_nil _ _ _ h4)
        (irtItemsOf_skill _ _ _)
    refine ⟨_, _, hok, rfl, rfl, ⟨_, rfl, ?_⟩,
      ⟨_, _, dictGet_dictSet_self _ _ _, dictGet_dictSet_self _ _ _, rfl⟩⟩
    rw [hfn]
    simp only [applyGroup, dictGet_dictSet_self, Option.map_some, Option.getD_some,
      clamp05, reconcile]
    rfl

/-- Witness for C4 at the one-question fixture state. -/
theorem submit_assessment_band_reconcile_persist_witness :
    (∀ x : ℚ,
      (0 ≤ x → x < 20 → bandScore x = 1) ∧ (20 ≤ x → x < 40 → bandScore x = 2) ∧
      (40 ≤ x → x < 60 → bandScore x = 3) ∧ (60 ≤ x → x < 80 → bandScore x = 4) ∧
      (80 ≤ x → x ≤ 100 → bandScore x = 5)) ∧
    (∃ s1 r, submit_assessment sFix 2 1 [("q1", "a")] 0 = .ok (s1, r) ∧
      r.percentage_correct =
        ((aPend.questions.countP (gradeAnswer [("q1", "a")]) : ℚ) /
          (aPend.questions.length : ℚ)) * 100 ∧
      r.score = bandScore r.percentage_correct ∧
      (∃ lvl : ℝ,
        ((dictGet (update_profile_fn []
            (irtItemsOf aPend.skill_id [("q1", "a")] aPend.questions))
            aPend.skill_id).map (·.level)).getD 0 = lvl ∧
        r.updated_proficiency =
          max 0 (min 5
            (if r.percentage_correct ≥ 80 then max (r.score : ℝ) lvl
             else if r.percentage_correct ≥ 60 then ((r.score : ℝ) + lvl) / 2
             else lvl))) ∧
      (∃ prof2 st2, dictGet s1.profiles 1 = some prof2 ∧
        dictGet prof2 aPend.skill_id = some st2 ∧ st2.level = r.updated_proficiency)) :=
  submit_assessment_band_reconcile_persist sFix 2 1 [("q1", "a")] 0 aPend []
    (by simp [sFix, dictGet]) rfl (by simp [aPend]) (by simp [aPend, qFix])
    (by simp [sFix, dictGet])

/-- C7 (amended): when the estimator's profile update fails inside
`submit_assessment` (here: the employee profile row is missing), the
exception is caught, `proficiency_score` is substituted for the updated
proficiency, no profile row is written, and the assessment is still marked
completed — the error does not propagate. -/
theorem submit_catches_estimator_error (s : SubmitState) (aid emp : ℕ)
    (ans : List (String × String)) (now : ℕ) (a : Assessment)
    (h1 : dictGet s.assessments aid = some a) (h2 : a.employee_id = emp)
    (h3 : a.status ≠ "completed") (h4 : a.questions ≠ [])
    (h5 : dictGet s.profiles emp = none) :
    update_profile s.profiles emp (irtItemsOf a.skill_id ans a.questions) =
      .error .notFound ∧
    (∃ s1 r, submit_assessment s aid emp ans now = .ok (s1, r) ∧
      r.updated_proficiency = (r.score : ℝ) ∧
      s1.profiles = s.profiles ∧
      (∃ a1, dictGet s1.assessments aid = some a1 ∧ a1.status = "completed")) := by
  constructor
  · simp [update_profile, h5]
  · have hok := submit_assessment_eq_ok s aid emp ans now a h1 h2 h3 h4
    have hcore : submitCore s aid a emp ans now =
        (⟨dictSet s.assessments aid
            { a with
              answers := ans
              correct_answers :=
                a.questions.map (fun q => (q.question_id, q.correct_answer_id))
              score := bandScore (if a.questions.length > 0 then
                  ((a.questions.countP (gradeAnswer ans) : ℚ) / (a.questions.length : ℚ)) * 100
                else 0)
              status := "completed"
              completed_at := some now },
          s.profiles⟩,
         { assessment_id := aid
           skill_id := a.skill_id
           score := bandScore (if a.questions.length > 0 then
               ((a.questions.countP (gradeAnswer ans) : ℚ) / (a.questions.length : ℚ)) * 100
             else 0)
           percentage_correct := if a.questions.length > 0 then
               ((a.questions.countP (gradeAnswer ans) : ℚ) / (a.questions.length : ℚ)) * 100
             else 0
           total_questions := a.questions.length
           correct_answers_count := a.questions.countP (gradeAnswer ans)
           questions_with_feedback := feedbackOf ans a.questions
           updated_proficiency := (bandScore (if a.questions.length > 0 then
               ((a.questions.countP (gradeAnswer ans) : ℚ) / (a.questions.length : ℚ)) * 100
             else 0) : ℝ) }) := by
      simp only [submitCore, update_profile, h5]
    rw [hcore] at hok
    exact ⟨_, _, hok, rfl, rfl, ⟨_, dictGet_dictSet_self _ _ _, rfl⟩⟩

/-- Witness for C7's amended theorem at the profile-less fixture state. -/
theorem submit_catches_estimator_error_witness :
    update_profile sNoProf.profiles 1 (irtItemsOf aPend.skill_id [] aPend.questions) =
      .error .notFound ∧
    (∃ s1 r, submit_assessment sNoProf 2 1 [] 0 = .ok (s1, r) ∧
      r.updated_proficiency = (r.score : ℝ) ∧
      s1.profiles = sNoProf.profiles ∧
      (∃ a1, dictGet s1.assessments 2 = some a1 ∧ a1.status = "completed")) :=
  submit_catches_estimator_error sNoProf 2 1 [] 0 aPend
    (by simp [sNoProf, dictGet]) rfl (by simp [aPend]) (by simp [aPend, qFix])
    (by simp [sNoProf, dictGet])

/-- Counterexample to C7 as stated: at a concrete state whose employee
profile row is missing, the estimator's profile update raises
(`NotFoundError`), yet `submit_assessment` succeeds instead of aborting —
the error is swallowed and a substitute result returned. -/
theorem submit_swallows_estimator_error_counterexample :
    update_profile sNoProf.profiles 1 (irtItemsOf aPend.skill_id [] aPend.questions) =
      .error .notFound ∧
    (submit_assessment sNoProf 2 1 [] 0).toOption ≠ none := by
  constructor
  · simp [sNoProf, update_profile, dictGet]
  · rw [submit_assessment_eq_ok sNoProf 2 1 [] 0 aPend
      (by simp [sNoProf, dictGet]) rfl (by simp [aPend]) (by simp [aPend, qFix])]
    simp [Except.toOption]

/-- C9: while an assessment is not completed, `get_assessment` returns every
question with `correct_answer_id` and `explanation` absent; after a
successful submit (status completed) it returns the stored questions with
both fields present. -/
theorem get_assessment_redacts_until_completed (s : SubmitState) (aid emp : ℕ)
    (a : Assessment) (h1 : dictGet s.assessments aid = some a)
    (h2 : a.employee_id = emp) :
    (a.status ≠ "completed" →
      ∃ g, get_assessment s aid emp = .ok g ∧
        g.questions = a.questions.map displayRedacted ∧
        ∀ dq ∈ g.questions, dq.correct_answer_id = none ∧ dq.explanation = none) ∧
    (∀ ans now s1 r, submit_assessment s aid emp ans now = .ok (s1, r) →
      ∃ g, get_assessment s1 aid emp = .ok g ∧
        g.questions = a.questions.map displayFull ∧
        ∀ q ∈ a.questions, (displayFull q).correct_answer_id = some q.correct_answer_id ∧
          (displayFull q).explanation = some q.explanation) := by
  constructor
  · intro h3
    have hget : get_assessment s aid emp = .ok
        { assessment_id := aid
          skill_id := a.skill_id
          questions := a.questions.map displayRedacted
          difficulty_level := a.difficulty_level
          status := a.status
          completed_at := a.completed_at } := by
      simp only [get_assessment, h1]
      rw [if_neg (by simp [h2]), if_pos h3]
    refine ⟨_, hget, rfl, ?_⟩
    intro dq hdq
    simp only [List.mem_map] at hdq
    obtain ⟨q, _, hq⟩ := hdq
    rw [← hq]
    exact ⟨rfl, rfl⟩
  · intro ans now s1 r hsub
    by_cases h3 : a.status = "completed"
    · rw [submit_conflict_of_completed s aid emp ans now a h1 h2 h3] at hsub
      exact absurd hsub (by simp)
    · by_cases h4 : a.questions = []
      · have : submit_assessment s aid emp ans now = .error .validation := by
          simp only [submit_assessment, h1]
          rw [if_neg (by simp [h2]), if_neg h3, if_pos (by simp [h4])]
        rw [this] at hsub
        exact absurd hsub (by simp)
      · rw [submit_assessment_eq_ok s aid emp ans now a h1 h2 h3 h4] at hsub
        have hpair : submitCore s aid a emp ans now = (s1, r) := by
          cases hsub
          rfl
        have hs1 : s1 = (submitCore s aid a emp ans now).1 := by rw [hpair]
        subst hs1
        have hget : dictGet (submitCore s aid a emp ans now).1.assessments aid =
            some { a with
              answers := ans
              correct_answers :=
                a.questions.map (fun q => (q.question_id, q.correct_answer_id))
              score := (submitCore s aid a emp ans now).2.score
              status := "completed"
              completed_at := some now } := dictGet_dictSet_self _ _ _
        have hget2 : get_assessment (submitCore s aid a emp ans now).1 aid emp = .ok
            { assessment_id := aid
              skill_id := a.skill_id
              questions := a.questions.map displayFull
              difficulty_level := a.difficulty_level
              status := "completed"
              completed_at := some now } := by
          simp only [get_assessment, hget]
          rw [if_neg (by simp [h2])]
          simp
        exact ⟨_, hget2, rfl, fun q _ => ⟨rfl, rfl⟩⟩

/-- Witness for C9: redaction of the pending fixture and full exposure after
its submit. -/
theorem get_assessment_redacts_until_completed_witness :
    (aPend.status ≠ "completed" →
      ∃ g, get_assessment sFix 2 1 = .ok g ∧
        g.questions = aPend.questions.map displayRedacted ∧
        ∀ dq ∈ g.questions, dq.correct_answer_id = none ∧ dq.explanation = none) ∧
    (∀ ans now s1 r, submit_assessment sFix 2 1 ans now = .ok (s1, r) →
      ∃ g, get_assessment s1 2 1 = .ok g ∧
        g.questions = aPend.questions.map displayFull ∧
        ∀ q ∈ aPend.questions,
          (displayFull q).correct_answer_id = some q.correct_answer_id ∧
          (displayFull q).explanation = some q.explanation) :=
  get_assessment_redacts_until_completed sFix 2 1 aPend (by simp [sFix, dictGet]) rfl

/-- C10: a question whose id is absent from the submitted answers mapping is
graded with the empty default answer, which never matches a non-empty correct
option id: it is graded incorrect, counted as wrong in the percentage, and
fed to the IRT update as an incorrect response. -/
theorem unanswered_question_graded_incorrect (s : SubmitState) (aid emp : ℕ)
    (ans : List (String × String)) (now : ℕ) (a : Assessment) (q : Question)
    (h1 : dictGet s.assessments aid = some a) (h2 : a.employee_id = emp)
    (h3 : a.status ≠ "completed") (h4 : a.questions ≠ [])
    (hq : q ∈ a.questions) (habs : dictGet ans q.question_id = none)
    (hcor : q.correct_answer_id ≠ "") :
    gradeAnswer ans q = false ∧
    AssessItem.mk a.skill_id (q.difficulty : ℝ) false ∈
      irtItemsOf a.skill_id ans a.questions ∧
    (∃ s1 r, submit_assessment s aid emp ans now = .ok (s1, r) ∧
      r.questions_with_feedback.map (·.is_correct) = a.questions.map (gradeAnswer ans) ∧
      r.correct_answers_count = a.questions.countP (gradeAnswer ans) ∧
      r.percentage_correct =
        ((a.questions.countP (gradeAnswer ans) : ℚ) / (a.questions.length : ℚ)) * 100) := by
  have hfalse : gradeAnswer ans q = false := by
    rw [gradeAnswer, habs]
    simp only [Option.getD_none]
    rw [beq_eq_false_iff_ne]
    exact fun he => pyLower_ne_empty _ hcor he.symm
  refine ⟨hfalse, ?_, ?_⟩
  · have : AssessItem.mk a.skill_id (q.difficulty : ℝ) false =
        AssessItem.mk a.skill_id (q.difficulty : ℝ) (gradeAnswer ans q) := by rw [hfalse]
    rw [this, irtItemsOf]
    exact List.mem_map_of_mem _ hq
  · refine ⟨_, _, submit_assessment_eq_ok s aid emp ans now a h1 h2 h3 h4, ?_, rfl, ?_⟩
    · exact feedbackOf_map_is_correct ans a.questions
    · show (if (0:ℕ) < a.questions.length then _ else (0:ℚ)) = _
      rw [if_pos (List.length_pos.mpr h4)]

/-- Witness for C10: the fixture question `q1` (correct id `"a"`) with an
empty answers mapping. -/
theorem unanswered_question_graded_incorrect_witness :
    gradeAnswer [] qFix = false ∧
    AssessItem.mk aPend.skill_id (qFix.difficulty : ℝ) false ∈
      irtItemsOf aPend.skill_id [] aPend.questions ∧
    (∃ s1 r, submit_assessment sFix 2 1 [] 0 = .ok (s1, r) ∧
      r.questions_with_feedback.map (·.is_correct) =
        aPend.questions.map (gradeAnswer []) ∧
      r.correct_answers_count = aPend.questions.countP (gradeAnswer []) ∧
      r.percentage_correct =
        ((aPend.questions.countP (gradeAnswer []) : ℚ) /
          (aPend.questions.length : ℚ)) * 100) :=
  unanswered_question_graded_incorrect sFix 2 1 [] 0 aPend qFix
    (by simp [sFix, dictGet]) rfl (by simp [aPend]) (by simp [aPend, qFix])
    (by simp [aPend]) rfl (by simp [qFix])

/-! ### Scheduler lemmas -/

theorem ItemsNodup_append (items : List PathItem) (added : List ℕ) (i : PathItem)
    (h : ItemsNodup items added) (hni : i.module_id ∉ added) :
    ItemsNodup (items ++ [i]) (added ++ [i.module_id]) := by
  constructor
  · rw [List.map_append, List.nodup_append]
    refine ⟨h.1, by simp, ?_⟩
    intro x hx hx2
    simp only [List.map_cons, List.map_nil, List.mem_singleton] at hx2
    subst hx2
    obtain ⟨j, hj, hjx⟩ := List.mem_map.mp hx
    exact hni (hjx ▸ h.2 j hj)
  · intro j hj
    rcases List.mem_append.mp hj with hj1 | hj2
    · exact List.mem_append.mpr (Or.inl (h.2 j hj1))
    · simp only [List.mem_singleton] at hj2
      subst hj2
      simp
theorem BudgetOk_append (max_min : ℚ) (items : List PathItem) (total : ℚ) (i : PathItem)
    (dur : ℚ) (h : BudgetOk max_min items total) (hle : (i.duration_minutes : ℚ) ≤ dur)
    (htot : total + dur ≤ max_min) : BudgetOk max_min (items ++ [i]) (total + dur) := by
  constructor
  · rw [List.map_append, List.sum_append]
    simp only [List.map_cons, List.map_nil, List.sum_cons, List.sum_nil, add_zero]
    have := h.1
    linarith
  · exact htot

theorem durationBounds_fst_nonneg (t : ℤ) (ht : 1 ≤ t) : 0 ≤ (durationBounds t).1 := by
  show (0 : ℚ) ≤ 15 + (t : ℚ) * 10
  have htq : (1 : ℚ) ≤ (t : ℚ) := by exact_mod_cast ht
  linarith

theorem clampMax_nonneg (t : ℤ) (ht : 1 ≤ t) (x : ℚ) :
    0 ≤ max (durationBounds t).1 (min (durationBounds t).2 x) :=
  le_trans (durationBounds_fst_nonneg t ht) (le_max_left _ _)

theorem fallbackDuration_nonneg (t : ℤ) (gap : ℚ) (ht : 1 ≤ t) :
    0 ≤ fallbackDuration t gap := by
  rw [fallbackDuration]
  exact clampMax_nonneg t ht _

theorem pyInt_calc_le (m : LearningModule) (t : ℤ) (gap : ℚ) (ht : 1 ≤ t) :
    (pyInt (calculate_module_duration m t gap) : ℚ) ≤ calculate_module_duration m t gap := by
  rw [calculate_module_duration]
  split
  · rw [pyInt_intCast]
  · split
    · split
      · exact pyInt_le_of_nonneg _ (clampMax_nonneg t ht _)
      · exact pyInt_le_of_nonneg _ (fallbackDuration_nonneg t gap ht)
    · exact pyInt_le_of_nonneg _ (fallbackDuration_nonneg t gap ht)

theorem allocateModules_nodup (max_min : ℚ) (sk : ℕ) (t : ℤ) :
    ∀ (mods : List LearningModule) (st : AllocSt),
      ItemsNodup st.items st.added →
      ItemsNodup (allocateModules max_min sk t mods st).items
        (allocateModules max_min sk t mods st).added := by
  intro mods
  induction mods with
  | nil => intro st h; simpa [allocateModules] using h
  | cons m rest ih =>
    intro st h
    rw [allocateModules]
    by_cases hmem : m.module_id ∈ st.added
    · rw [if_pos hmem]; exact ih st h
    · rw [if_neg hmem]
      dsimp only
      by_cases hbrk : calculate_module_duration m t st.gap_val > max_min - st.total ∧
          max_min - st.total < 15
      · rw [if_pos hbrk]; exact h
      · rw [if_neg hbrk]
        generalize (if calculate_module_duration m t st.gap_val > max_min - st.total
            then max_min - st.total else calculate_module_duration m t st.gap_val) = dur
        have hst1 : ItemsNodup
            (st.items ++
              [({ skill_id := sk, module_id := m.module_id, title := m.title,
                  description := m.description, order := st.items.length + 1,
                  expected_gain := min st.gap_val (1/2),
                  duration_minutes := pyInt dur,
                  is_generated := m.is_generated } : PathItem)])
            (st.added ++ [m.module_id]) :=
          ItemsNodup_append st.items st.added _ h hmem
        split
        · exact hst1
        · split
          · exact hst1
          · exact ih _ hst1

theorem allocateModules_budget (max_min : ℚ) (sk : ℕ) (t : ℤ) (ht : 1 ≤ t) :
    ∀ (mods : List LearningModule) (st : AllocSt),
      BudgetOk max_min st.items st.total →
      BudgetOk max_min (allocateModules max_min sk t mods st).items
        (allocateModules max_min sk t mods st).total := by
  intro mods
  induction mods with
  | nil => intro st h; simpa [allocateModules] using h
  | cons m rest ih =>
    intro st h
    rw [allocateModules]
    by_cases hmem : m.module_id ∈ st.added
    · rw [if_pos hmem]; exact ih st h
    · rw [if_neg hmem]
      dsimp only
      by_cases hbrk : calculate_module_duration m t st.gap_val > max_min - st.total ∧
          max_min - st.total < 15
      · rw [if_pos hbrk]; exact h
      · rw [if_neg hbrk]
        by_cases hgt : calculate_module_duration m t st.gap_val > max_min - st.total
        · have hrem : (15 : ℚ) ≤ max_min - st.total := by
            rcases not_and_or.mp hbrk with hc | hc
            · exact absurd hgt hc
            · linarith [not_lt.mp hc]
          rw [if_pos hgt]
          have hst1 : BudgetOk max_min
              (st.items ++
                [({ skill_id := sk, module_id := m.module_id, title := m.title,
                    description := m.description, order := st.items.length + 1,
                    expected_gain := min st.gap_val (1/2),
                    duration_minutes := pyInt (max_min - st.total),
                    is_generated := m.is_generated } : PathItem)])
              (st.total + (max_min - st.total)) :=
            BudgetOk_append max_min st.items st.total _ _ h
              (pyInt_le_of_nonneg _ (by linarith)) (by linarith)
          split
          · exact hst1
          · split
            · exact hst1
            · exact ih _ hst1
        · rw [if_neg hgt]
          have hle : calculate_module_duration m t st.gap_val ≤ max_min - st.total :=
            not_lt.mp hgt
          have hst1 : BudgetOk max_min
              (st.items ++
                [({ skill_id := sk, module_id := m.module_id, title := m.title,
                    description := m.description, order := st.items.length + 1,
                    expected_gain := min st.gap_val (1/2),
                    duration_minutes := pyInt (calculate_module_duration m t st.gap_val),
                    is_generated := m.is_generated } : PathItem)])
              (st.total + calculate_module_duration m t st.gap_val) :=
            BudgetOk_append max_min st.items st.total _ _ h
              (pyInt_calc_le m t st.gap_val ht) (by linarith)
          split
          · exact hst1
          · split
            · exact hst1
            · exact ih _ hst1

theorem selectModules_state (ctx : RecCtx) (st : OuterSt) (sk : ℕ) (t : ℤ) (th : ℚ) :
    (selectModules ctx st sk t th).2.path_items = st.path_items ∧
    (selectModules ctx st sk t th).2.added = st.added ∧
    (selectModules ctx st sk t th).2.total_minutes = st.total_minutes := by
  unfold selectModules runGen
  dsimp only
  repeat' split
  all_goals exact ⟨rfl, rfl, rfl⟩

theorem one_le_targetLevel (x : ℚ) : (1 : ℤ) ≤ min 5 (max 1 (pyInt x)) :=
  le_min (by norm_num) (le_max_left 1 (pyInt x))

theorem outerStep_nodup (ctx : RecCtx) (profile : RecProfile) (max_min : ℚ) (st : OuterSt)
    (h : ItemsNodup st.path_items st.added) :
    ItemsNodup (outerStep ctx profile max_min st).state.path_items
      (outerStep ctx profile max_min st).state.added := by
  unfold outerStep
  cases hss : sortDescVal (st.skills_sorted.filter (fun p => p.2 > 0)) with
  | nil => exact h
  | cons head tail =>
    obtain ⟨sk, gap⟩ := head
    dsimp only
    split
    · exact h
    · set th := ((dictGet profile sk).bind (·.theta)).getD 0 with hth
      set tlev := min 5 (max 1 (pyInt (((dictGet profile sk).bind (·.level)).getD th + gap)))
        with htlev
      have hsel := selectModules_state ctx st sk tlev th
      have halloc := allocateModules_nodup max_min sk tlev
        (selectModules ctx st sk tlev th).1
        ⟨(selectModules ctx st sk tlev th).2.path_items,
          (selectModules ctx st sk tlev th).2.added,
          (selectModules ctx st sk tlev th).2.total_minutes, gap, false, false⟩
        (by rw [hsel.1, hsel.2.1]; exact h)
      split
      · exact halloc
      · rw [hsel.1, hsel.2.1]
        repeat' split
        all_goals exact h

theorem outerStep_budget (ctx : RecCtx) (profile : RecProfile) (max_min : ℚ) (st : OuterSt)
    (h : BudgetOk max_min st.path_items st.total_minutes) :
    BudgetOk max_min (outerStep ctx profile max_min st).state.path_items
      (outerStep ctx profile max_min st).state.total_minutes := by
  unfold outerStep
  cases hss : sortDescVal (st.skills_sorted.filter (fun p => p.2 > 0)) with
  | nil => exact h
  | cons head tail =>
    obtain ⟨sk, gap⟩ := head
    dsimp only
    split
    · exact h
    · set th := ((dictGet profile sk).bind (·.theta)).getD 0 with hth
      set tlev := min 5 (max 1 (pyInt (((dictGet profile sk).bind (·.level)).getD th + gap)))
        with htlev
      have hsel := selectModules_state ctx st sk tlev th
      have halloc := allocateModules_budget max_min sk tlev
        (htlev ▸ one_le_targetLevel _)
        (selectModules ctx st sk tlev th).1
        ⟨(selectModules ctx st sk tlev th).2.path_items,
          (selectModules ctx st sk tlev th).2.added,
          (selectModules ctx st sk tlev th).2.total_minutes, gap, false, false⟩
        (by rw [hsel.1, hsel.2.2]; exact h)
      split
      · exact halloc
      · rw [hsel.1, hsel.2.2]
        repeat' split
        all_goals exact h

theorem outerLoop_nodup (ctx : RecCtx) (profile : RecProfile) (max_min : ℚ) :
    ∀ (fuel : ℕ) (st : OuterSt), ItemsNodup st.path_items st.added →
      ItemsNodup (outerLoop ctx profile max_min fuel st).path_items
        (outerLoop ctx profile max_min fuel st).added := by
  intro fuel
  induction fuel with
  | zero => intro st h; simpa [outerLoop] using h
  | succ f ih =>
    intro st h
    rw [outerLoop]
    split
    · cases hstep : outerStep ctx profile max_min st with
      | halt s =>
        have hs := outerStep_nodup ctx profile max_min st h
        rw [hstep] at hs
        exact hs
      | cont s =>
        have hs := outerStep_nodup ctx profile max_min st h
        rw [hstep] at hs
        exact ih s hs
    · exact h

theorem outerLoop_budget (ctx : RecCtx) (profile : RecProfile) (max_min : ℚ) :
    ∀ (fuel : ℕ) (st : OuterSt), BudgetOk max_min st.path_items st.total_minutes →
      BudgetOk max_min (outerLoop ctx profile max_min fuel st).path_items
        (outerLoop ctx profile max_min fuel st).total_minutes := by
  intro fuel
  induction fuel with
  | zero => intro st h; simpa [outerLoop] using h
  | succ f ih =>
    intro st h
    rw [outerLoop]
    split
    · cases hstep : outerStep ctx profile max_min st with
      | halt s =>
        have hs := outerStep_budget ctx profile max_min st h
        rw [hstep] at hs
        exact hs
      | cont s =>
        have hs := outerStep_budget ctx profile max_min st h
        rw [hstep] at hs
        exact ih s hs
    · exact h

/-- C8: every plan returned by `generate_learning_path` has pairwise-distinct
module ids. -/
theorem generate_learning_path_no_module_repeats (ctx : RecCtx) (employee_id goal_id : ℕ)
    (gaps : GapsOutcome) (max_hours : ℚ) (plan : PlanResult)
    (hok : generate_learning_path ctx employee_id goal_id gaps max_hours = .ok plan) :
    (plan.items.map (·.module_id)).Nodup := by
  unfold generate_learning_path at hok
  revert hok
  cases h1 : dictGet ctx.employees employee_id with
  | none => intro hok; exact absurd hok (by simp)
  | some emp =>
    cases h2 : dictGet ctx.goals goal_id with
    | none => intro hok; exact absurd hok (by simp)
    | some goal =>
      dsimp only
      split
      · intro hok
        cases hok
        simp
      · intro hok
        cases hok
        exact (outerLoop_nodup ctx emp.cognitive_profile (max_hours * 60) _ _
          ⟨by simp, by simp⟩).1

/-- Witness for C8 at a concrete context (the empty-gaps plan). -/
theorem generate_learning_path_no_module_repeats_witness :
    (planW.items.map (·.module_id)).Nodup :=
  generate_learning_path_no_module_repeats ctxW 1 2 gapsEmptyW 40 planW rfl

/-- C3 (amended): for every non-negative budget the item durations of a
returned plan sum to at most `max_hours * 60`; and in the allocation step,
when a selected module's duration exceeds the remaining budget, an item is
added exactly when the remainder is at least 15 minutes, with stored duration
`int(remainder)` (the remainder rounded toward zero, equal to the remainder
only when it is a whole number of minutes) and the loop stops; otherwise no
item is added for that module and the allocation loop breaks. -/
theorem generate_learning_path_budget_and_truncation (ctx : RecCtx)
    (employee_id goal_id : ℕ) (gaps : GapsOutcome) (max_hours : ℚ) (plan : PlanResult)
    (hm : 0 ≤ max_hours)
    (hok : generate_learning_path ctx employee_id goal_id gaps max_hours = .ok plan) :
    ((plan.items.map (fun i => (i.duration_minutes : ℚ))).sum ≤ max_hours * 60) ∧
    (∀ (max_min : ℚ) (sk : ℕ) (t : ℤ) (m : LearningModule) (rest : List LearningModule)
      (st : AllocSt), m.module_id ∉ st.added →
      calculate_module_duration m t st.gap_val > max_min - st.total →
      ((15 ≤ max_min - st.total →
        allocateModules max_min sk t (m :: rest) st =
          { items := st.items ++
              [({ skill_id := sk, module_id := m.module_id, title := m.title,
                   description := m.description, order := st.items.length + 1,
                   expected_gain := min st.gap_val (1/2),
                   duration_minutes := pyInt (max_min - st.total),
                   is_generated := m.is_generated } : PathItem)]
            added := st.added ++ [m.module_id]
            total := max_min
            gap_val := st.gap_val - 1/2
            module_added := true
            closed := false }) ∧
      (max_min - st.total < 15 →
        allocateModules max_min sk t (m :: rest) st = st))) := by
  constructor
  · revert hok
    unfold generate_learning_path
    cases h1 : dictGet ctx.employees employee_id with
    | none => intro hok; exact absurd hok (by simp)
    | some emp =>
      cases h2 : dictGet ctx.goals goal_id with
      | none => intro hok; exact absurd hok (by simp)
      | some goal =>
        dsimp only
        split
        · intro hok
          cases hok
          simp
          positivity
        · intro hok
          cases hok
          have hb := outerLoop_budget ctx emp.cognitive_profile (max_hours * 60)
            ((sortDescVal gaps.scalar_gaps).length * 10)
            ⟨sortDescVal gaps.scalar_gaps, 0, [], [],
              gaps.scalar_gaps.map (fun p => (p.1, ((0:ℕ), max 1 (pyInt (p.2 / (1/2)))))),
              ctx.modules, ctx.next_module_id, 0, 0⟩
            ⟨by simp, by positivity⟩
          exact le_trans hb.1 hb.2
  · intro max_min sk t m rest st hmem hgt
    constructor
    · intro hge
      rw [allocateModules, if_neg hmem]
      dsimp only
      rw [if_neg (fun hc => absurd hc.2 (not_lt.mpr hge)), if_pos hgt]
      have heq : st.total + (max_min - st.total) = max_min := by ring
      rw [heq, if_pos (le_refl max_min)]
    · intro hlt
      rw [allocateModules, if_neg hmem]
      dsimp only
      rw [if_pos ⟨hgt, hlt⟩]

/-- Witness for C3's amended theorem: the empty-gaps plan respects the
budget; a 100-minute module against a 15.5-minute remainder is truncated to
`int(15.5)`; against a 10-minute remainder nothing is added. -/
theorem generate_learning_path_budget_and_truncation_witness :
    ((planW.items.map (fun i => (i.duration_minutes : ℚ))).sum ≤ 40 * 60) ∧
    (allocateModules (31/2) 1 1 [mBig] ⟨[], [], 0, 1, false, false⟩ =
      { items := [({ skill_id := 1, module_id := mBig.module_id, title := mBig.title,
                     description := mBig.description, order := 1,
                     expected_gain := min 1 (1/2),
                     duration_minutes := pyInt ((31 : ℚ)/2 - 0),
                     is_generated := mBig.is_generated } : PathItem)]
        added := [mBig.module_id]
        total := 31/2
        gap_val := 1 - 1/2
        module_added := true
        closed := false }) ∧
    (allocateModules 10 1 1 [mBig] ⟨[], [], 0, 1, false, false⟩ =
      (⟨[], [], 0, 1, false, false⟩ : AllocSt)) := by
  refine ⟨?_, ?_, ?_⟩
  · exact (generate_learning_path_budget_and_truncation ctxW 1 2 gapsEmptyW 40 planW
      (by norm_num) rfl).1
  · exact ((generate_learning_path_budget_and_truncation ctxW 1 2 gapsEmptyW 40 planW
      (by norm_num) rfl).2 (31/2) 1 1 mBig [] ⟨[], [], 0, 1, false, false⟩
      (by simp [mBig]) (by norm_num [calculate_module_duration, mBig])).1 (by norm_num)
  · exact ((generate_learning_path_budget_and_truncation ctxW 1 2 gapsEmptyW 40 planW
      (by norm_num) rfl).2 10 1 1 mBig [] ⟨[], [], 0, 1, false, false⟩
      (by simp [mBig]) (by norm_num [calculate_module_duration, mBig])).2 (by norm_num)

/-- Counterexample to C3 as stated: with a 15.5-minute remainder (budget
`31/120` hours) and a 100-minute module, the truncated item is stored with
`duration_minutes = 15`, not "exactly the remainder" 15.5. -/
theorem truncation_not_exact_remainder_counterexample :
    ((allocateModules (31/2) 1 1 [mBig] ⟨[], [], 0, 1, false, false⟩).items.map
      (fun i => (i.duration_minutes : ℚ))) = [15] ∧ ¬((31 : ℚ)/2 - 0 = 15) := by
  constructor
  · rw [allocateModules, if_neg (by simp [mBig])]
    dsimp only
    have h100 : calculate_module_duration mBig 1 (1 : ℚ) = 100 := by
      norm_num [calculate_module_duration, mBig]
    rw [h100]
    rw [if_neg (by norm_num), if_pos (by norm_num : (100 : ℚ) > 31/2 - 0)]
    rw [if_pos (by norm_num : (0 : ℚ) + (31/2 - 0) ≥ 31/2)]
    simp only [List.nil_append, List.map_cons, List.map_nil]
    norm_num [pyInt]
  · norm_num

end SkillMap
